import Mathlib

/-!
Shallow embedding of the install/launch orchestration of `mcv.py`
(`LauncherWorker` and its helpers), together with theorems settling the
specification claims about it.

Conventions:
* file contents and JSON text are `List Char`;
* machine-level details that the worker delegates to the standard library
  (`json`, `uuid`/`md5`, UTF-8 encoding) are modelled faithfully from their
  documented algorithms, because the claims depend on them;
* external collaborators (network, file system, `minecraft_launcher_lib`)
  are an explicit environment record supplying the result of each call site,
  and the worker body is a pure function of configuration and environment
  that also returns the trace of emitted events.
-/

/-! ## Progress reporting (`update_progress`, `download_with_callback`) -/

/-- Model of `LauncherWorker.update_progress`: emits `int(current / total * 100)` only
when `total > 0`.  The float computation is modelled by exact natural
division; the claims about this function only concern whether an emission
happens. -/
def update_progress (current total : Nat) : Option Nat :=
  if total > 0 then some (current * 100 / total) else none

/-- Loop body of `LauncherWorker.download_with_callback`: `downloaded` bytes
so far, one iteration per received chunk, a percentage emitted per chunk only
when `total_size > 0`. -/
def downloadEmits (totalSize downloaded : Nat) : List Nat → List Nat
  | [] => []
  | c :: rest =>
    if totalSize > 0 then
      ((downloaded + c) * 100 / totalSize) :: downloadEmits totalSize (downloaded + c) rest
    else
      downloadEmits totalSize (downloaded + c) rest

/-- Model of `LauncherWorker.download_with_callback` progress behaviour: the sequence
of percentages emitted while downloading a body that arrives as `chunks`,
with server-reported content length `totalSize` (0 when the header is
absent). -/
def download_with_callback (totalSize : Nat) (chunks : List Nat) : List Nat :=
  downloadEmits totalSize 0 chunks

/-! ## RAM-derived JVM flags -/

/-- Maximum heap in GB: `-Xmx{ram_gb}G`. -/
def xmxGb (ramGb : Nat) : Nat := ramGb

/-- Initial heap in GB: `-Xms{min(2, int(ram_gb))}G`. -/
def xmsGb (ramGb : Nat) : Nat := min 2 ramGb

/-- The `jvmArguments` list built in `LauncherWorker.run` (step 7). -/
def jvmArguments (ramGb : Nat) : List String :=
  ["-Xmx" ++ toString (xmxGb ramGb) ++ "G",
   "-Xms" ++ toString (xmsGb ramGb) ++ "G",
   "-Dminecraft.launcher.brand=minecraft-launcher-lib",
   "-XX:+UnlockExperimentalVMOptions",
   "-XX:+UseG1GC"]

/-! ## Claim theorems for progress and JVM flags -/

/-- C7: for every configured RAM value in [2,16], the JVM flags derived from
it satisfy initial heap = min(2, configuredRam) GB and max heap =
configuredRam GB, hence initial heap ≤ max heap ≤ configured RAM. -/
theorem claim_C7_jvm_heap_flags (ramGb : Nat) (h2 : 2 ≤ ramGb) (h16 : ramGb ≤ 16) :
    (jvmArguments ramGb).get? 0 = some ("-Xmx" ++ toString (xmxGb ramGb) ++ "G") ∧
    (jvmArguments ramGb).get? 1 = some ("-Xms" ++ toString (xmsGb ramGb) ++ "G") ∧
    xmsGb ramGb = min 2 ramGb ∧ xmxGb ramGb = ramGb ∧
    xmsGb ramGb ≤ xmxGb ramGb ∧ xmxGb ramGb ≤ ramGb := by
  refine ⟨rfl, rfl, rfl, rfl, ?_, le_refl _⟩
  exact min_le_right 2 ramGb

theorem claim_C7_witness :
    2 ≤ 4 ∧ 4 ≤ 16 ∧
    ((jvmArguments 4).get? 0 = some ("-Xmx" ++ toString (xmxGb 4) ++ "G") ∧
     (jvmArguments 4).get? 1 = some ("-Xms" ++ toString (xmsGb 4) ++ "G") ∧
     xmsGb 4 = min 2 4 ∧ xmxGb 4 = 4 ∧ xmsGb 4 ≤ xmxGb 4 ∧ xmxGb 4 ≤ 4) :=
  ⟨by decide, by decide, claim_C7_jvm_heap_flags 4 (by decide) (by decide)⟩

theorem downloadEmits_ne_zero_total (downloaded : Nat) (chunks : List Nat)
    (p : Nat) : p ∈ downloadEmits 0 downloaded chunks → False := by
  induction chunks generalizing downloaded with
  | nil => intro h; simp [downloadEmits] at h
  | cons c rest ih =>
    intro h
    simp only [downloadEmits, gt_iff_lt, Nat.lt_irrefl, if_false] at h
    exact ih (downloaded + c) h

/-- C10: progress reporting never divides by zero: `update_progress` emits a
percentage only when the reported total is strictly positive, and during a
download a percentage is emitted only when the server-reported content
length is strictly positive. -/
theorem claim_C10_no_div_by_zero :
    (∀ current total : Nat, (update_progress current total).isSome → 0 < total) ∧
    (∀ totalSize chunks (p : Nat), p ∈ download_with_callback totalSize chunks → 0 < totalSize) := by
  constructor
  · intro current total h
    by_contra htot
    have h0 : total = 0 := Nat.eq_zero_of_not_pos htot
    simp [update_progress, h0] at h
  · intro totalSize chunks p hp
    by_contra htot
    have h0 : totalSize = 0 := Nat.eq_zero_of_not_pos htot
    subst h0
    exact downloadEmits_ne_zero_total 0 chunks p hp

theorem claim_C10_witness :
    ((update_progress 50 100).isSome → 0 < 100) ∧
    (7 ∈ download_with_callback 0 [8192] → 0 < 0) :=
  ⟨fun h => claim_C10_no_div_by_zero.1 50 100 h,
   fun h => claim_C10_no_div_by_zero.2 0 [8192] 7 h⟩

/-! ## Model of the `json` standard library, as used by the registration step

`json.loads` is a recursive-descent parser (fuelled; the fuel is always
sufficient for the initial call).  JSON numbers are kept as their source
token: the registration logic never inspects numeric values, and no claim
depends on Python's re-serialisation of exotic numeric spellings
(for example `1e3` as `1000.0`).  Python strings that would contain lone
surrogates are not representable and are treated as parse failures. -/

def isJsonWs (c : Char) : Bool := c = ' ' || c = '\t' || c = '\n' || c = '\r'

def skipWs (cs : List Char) : List Char := cs.dropWhile isJsonWs

def hexVal (c : Char) : Option Nat :=
  if '0' ≤ c ∧ c ≤ '9' then some (c.toNat - 48)
  else if 'a' ≤ c ∧ c ≤ 'f' then some (c.toNat - 87)
  else if 'A' ≤ c ∧ c ≤ 'F' then some (c.toNat - 55)
  else none

def escDecode (e : Char) : Option Char :=
  if e = '"' then some '"'
  else if e = '\\' then some '\\'
  else if e = '/' then some '/'
  else if e = 'b' then some (Char.ofNat 8)
  else if e = 'f' then some (Char.ofNat 12)
  else if e = 'n' then some '\n'
  else if e = 'r' then some '\r'
  else if e = 't' then some '\t'
  else none

/-- Lexes a JSON string body (after the opening quote) into code units:
literal characters yield their scalar value, `\uXXXX` yields `XXXX`. -/
def lexStr : List Char → Option (List Nat × List Char)
  | [] => none
  | '"' :: cs => some ([], cs)
  | '\\' :: 'u' :: h1 :: h2 :: h3 :: h4 :: cs =>
    match hexVal h1, hexVal h2, hexVal h3, hexVal h4 with
    | some a, some b, some c, some d =>
      (lexStr cs).map (fun p => ((4096 * a + 256 * b + 16 * c + d) :: p.1, p.2))
    | _, _, _, _ => none
  | '\\' :: e :: cs =>
    match escDecode e with
    | some ec => (lexStr cs).map (fun p => (ec.toNat :: p.1, p.2))
    | none => none
  | c :: cs =>
    if c.toNat < 32 then none
    else (lexStr cs).map (fun p => (c.toNat :: p.1, p.2))

/-- Combines adjacent `\u` surrogate pairs into astral characters, as the
Python decoder does; a lone surrogate has no `Char` counterpart and is
treated as a failure. -/
def combineSurr : List Nat → Option (List Char)
  | [] => some []
  | n :: m :: rest =>
    if n < 55296 ∨ 57344 ≤ n then
      (combineSurr (m :: rest)).map (fun s => Char.ofNat n :: s)
    else if n < 56320 ∧ 56320 ≤ m ∧ m < 57344 then
      (combineSurr rest).map (fun s => Char.ofNat (65536 + 1024 * (n - 55296) + (m - 56320)) :: s)
    else none
  | [n] => if n < 55296 ∨ 57344 ≤ n then some [Char.ofNat n] else none

def parseJStr (cs : List Char) : Option (List Char × List Char) :=
  match lexStr cs with
  | none => none
  | some (units, rest) => (combineSurr units).map (fun s => (s, rest))

def isNumChar (c : Char) : Bool :=
  c.isDigit || c = '-' || c = '+' || c = '.' || c = 'e' || c = 'E'

/-- Consume at least one digit, then any further digits. -/
def chompDigits1 : List Char → Option (List Char)
  | c :: cs => if c.isDigit then some (cs.dropWhile Char.isDigit) else none
  | [] => none

def numExpPart : List Char → Bool
  | [] => true
  | e :: t =>
    if e = 'e' ∨ e = 'E' then
      let t1 := match t with
                | s :: t' => if s = '+' ∨ s = '-' then t' else s :: t'
                | [] => ([] : List Char)
      match chompDigits1 t1 with
      | some rest => rest.isEmpty
      | none => false
    else false

def numFracPart : List Char → Bool
  | '.' :: t =>
    match chompDigits1 t with
    | some rest => numExpPart rest
    | none => false
  | l => numExpPart l

/-- The JSON number grammar `-?(0|[1-9][0-9]*)(\.[0-9]+)?([eE][+-]?[0-9]+)?`. -/
def numValid (l : List Char) : Bool :=
  let l1 := match l with | '-' :: t => t | _ => l
  match l1 with
  | '0' :: t => numFracPart t
  | c :: t => if c.isDigit then numFracPart (t.dropWhile Char.isDigit) else false
  | [] => false

theorem all_takeWhile (p : Char → Bool) (l : List Char) :
    (l.takeWhile p).all p = true := by
  induction l with
  | nil => rfl
  | cons c cs ih =>
    by_cases h : p c <;> simp [List.takeWhile, h, ih]

/-- Values produced by `json.loads`. -/
inductive JVal where
  | jstr (s : List Char)
  | jnum (tok : {l : List Char // l.all isNumChar = true})
  | jnan
  | jinf
  | jninf
  | jbool (b : Bool)
  | jnull
  | jarr (elems : List JVal)
  | jobj (members : List (List Char × JVal))

def parseNumTok (cs : List Char) : Option (JVal × List Char) :=
  let tok := cs.takeWhile isNumChar
  if numValid tok then some (.jnum ⟨tok, all_takeWhile isNumChar cs⟩, cs.drop tok.length)
  else none

def litPrefix (lit : List Char) (cs : List Char) : Option (List Char) :=
  if lit.isPrefixOf cs then some (cs.drop lit.length) else none

/-- Python `dict` insertion: a repeated key updates the value in place,
a fresh key is appended. -/
def objInsert (ms : List (List Char × JVal)) (k : List Char) (v : JVal) :
    List (List Char × JVal) :=
  if ms.any (fun kv => kv.1 = k) then
    ms.map (fun kv => if kv.1 = k then (k, v) else kv)
  else ms ++ [(k, v)]

mutual
def parseVal : Nat → List Char → Option (JVal × List Char)
  | 0, _ => none
  | fuel + 1, cs =>
    match skipWs cs with
    | [] => none
    | '"' :: rest => (parseJStr rest).map (fun p => (JVal.jstr p.1, p.2))
    | '[' :: rest =>
      match skipWs rest with
      | ']' :: r => some (.jarr [], r)
      | _ => parseElems fuel rest []
    | c :: rest =>
      if c = Char.ofNat 123 then
        match skipWs rest with
        | d :: r => if d = Char.ofNat 125 then some (.jobj [], r) else parseMembers fuel rest []
        | [] => none
      else if c = 't' then (litPrefix "rue".data rest).map (fun r => (.jbool true, r))
      else if c = 'f' then (litPrefix "alse".data rest).map (fun r => (.jbool false, r))
      else if c = 'n' then (litPrefix "ull".data rest).map (fun r => (.jnull, r))
      else if c = 'N' then (litPrefix "aN".data rest).map (fun r => (.jnan, r))
      else if c = 'I' then (litPrefix "nfinity".data rest).map (fun r => (.jinf, r))
      else if c = '-' then
        match litPrefix "Infinity".data rest with
        | some r => some (.jninf, r)
        | none => parseNumTok (c :: rest)
      else parseNumTok (c :: rest)
def parseElems : Nat → List Char → List JVal → Option (JVal × List Char)
  | 0, _, _ => none
  | fuel + 1, cs, acc =>
    match parseVal fuel cs with
    | none => none
    | some (v, r) =>
      match skipWs r with
      | ',' :: r2 => parseElems fuel r2 (acc ++ [v])
      | ']' :: r2 => some (.jarr (acc ++ [v]), r2)
      | _ => none
def parseMembers : Nat → List Char → List (List Char × JVal) → Option (JVal × List Char)
  | 0, _, _ => none
  | fuel + 1, cs, acc =>
    match skipWs cs with
    | '"' :: rest =>
      match parseJStr rest with
      | none => none
      | some (k, r) =>
        match skipWs r with
        | ':' :: r2 =>
          match parseVal fuel r2 with
          | none => none
          | some (v, r3) =>
            match skipWs r3 with
            | ',' :: r4 => parseMembers fuel r4 (objInsert acc k v)
            | d :: r4 => if d = Char.ofNat 125 then some (.jobj (objInsert acc k v), r4) else none
            | [] => none
        | _ => none
    | _ => none
end

/-- Model of `json.loads`: parse one value, then require only whitespace to follow. -/
def pyJsonLoads (cs : List Char) : Option JVal :=
  match parseVal (2 * cs.length + 2) cs with
  | some (v, r) => if skipWs r = [] then some v else none
  | none => none

/-! ### `json.dumps` (default options: `ensure_ascii=True`, separators `", "`, `": "`) -/

def hexDigitChar (n : Nat) : Char := "0123456789abcdef".data.getD (n % 16) '0'

def hex4 (n : Nat) : List Char :=
  [hexDigitChar (n / 4096), hexDigitChar (n / 256), hexDigitChar (n / 16), hexDigitChar n]

def escChar (c : Char) : List Char :=
  if c = '"' then ['\\', '"']
  else if c = '\\' then ['\\', '\\']
  else if c = '\n' then ['\\', 'n']
  else if c = '\t' then ['\\', 't']
  else if c = '\r' then ['\\', 'r']
  else if c.toNat = 8 then ['\\', 'b']
  else if c.toNat = 12 then ['\\', 'f']
  else if c.toNat < 32 then '\\' :: 'u' :: hex4 c.toNat
  else if c.toNat ≤ 126 then [c]
  else if c.toNat ≤ 65535 then '\\' :: 'u' :: hex4 c.toNat
  else
    ('\\' :: 'u' :: hex4 (55296 + (c.toNat - 65536) / 1024)) ++
      ('\\' :: 'u' :: hex4 (56320 + (c.toNat - 65536) % 1024))

def escapeStr (s : List Char) : List Char := s.flatMap escChar

def dumpStr (s : List Char) : List Char := '"' :: escapeStr s ++ ['"']

def sepComma : List Char := [',', ' ']

def sepColon : List Char := [':', ' ']

mutual
def dumps : JVal → List Char
  | .jstr s => dumpStr s
  | .jnum tok => tok.val
  | .jnan => "NaN".data
  | .jinf => "Infinity".data
  | .jninf => "-Infinity".data
  | .jbool true => "true".data
  | .jbool false => "false".data
  | .jnull => "null".data
  | .jarr xs => '[' :: dumpsList xs ++ [']']
  | .jobj ms => Char.ofNat 123 :: dumpsMembers ms ++ [Char.ofNat 125]
def dumpsList : List JVal → List Char
  | [] => []
  | [v] => dumps v
  | v :: w :: t => dumps v ++ sepComma ++ dumpsList (w :: t)
def dumpsMembers : List (List Char × JVal) → List Char
  | [] => []
  | [kv] => dumpStr kv.1 ++ sepColon ++ dumps kv.2
  | kv :: kw :: t => dumpStr kv.1 ++ sepColon ++ dumps kv.2 ++ sepComma ++ dumpsMembers (kw :: t)
end

/-! ## Resource-pack registration (step 6 of `LauncherWorker.run`)

The options file is manipulated as the list of its lines, exactly as
`readlines`/`writelines` do: a line keeps its trailing newline, and the
final line may lack one.  Newline translation done by text-mode file
objects is not modelled (every newline is `\n`). -/

/-- Whitespace stripped by Python's `str.strip()`. -/
def isPyStripWs (c : Char) : Bool :=
  [9, 10, 11, 12, 13, 28, 29, 30, 31, 32, 133, 160, 5760,
   8192, 8193, 8194, 8195, 8196, 8197, 8198, 8199, 8200, 8201, 8202,
   8232, 8233, 8239, 8287, 12288].contains c.toNat

def pyStrip (l : List Char) : List Char :=
  ((l.dropWhile isPyStripWs).reverse.dropWhile isPyStripWs).reverse

/-- Model of `line.split(":", 1)[1]`: everything after the first colon. -/
def afterColon (l : List Char) : List Char := (l.dropWhile (fun c => c != ':')).drop 1

def rpKey : List Char := "resourcePacks:".data

def mcvMarker : List Char := "MCV_SkinPack".data

def packEntry : List Char := "file/MCV_SkinPack".data

/-- Python `==` between the pack-entry string and a decoded JSON value
(only string-to-string comparison can succeed). -/
def jeqStr (v : JVal) (s : List Char) : Bool :=
  match v with
  | .jstr t => t = s
  | _ => false

/-- Python `needle in content` for a decoded JSON value: substring test on
strings, element equality on lists, key equality on dicts, and a
`TypeError` (`none`) on non-iterable values. -/
def listInfixOf (needle hay : List Char) : Bool := decide (needle <:+: hay)

def pyIn (needle : List Char) : JVal → Option Bool
  | .jstr s => some (listInfixOf needle s)
  | .jarr xs => some (xs.any (fun v => jeqStr v needle))
  | .jobj ms => some (ms.any (fun kv => kv.1 = needle))
  | _ => none

def isArrJ : JVal → Bool
  | .jarr _ => true
  | _ => false

/-- The per-line body of the registration loop (`mcv.py` lines 248–265):
a non-key line passes through; a key line containing the marker passes
through; otherwise the value is parsed and, on success, the pack entry is
appended when absent and the line re-serialised; any exception
(parse failure, `TypeError`/`AttributeError` on non-lists) leaves the
line untouched. -/
def patchLine (line : List Char) : List Char :=
  if rpKey.isPrefixOf line then
    if listInfixOf mcvMarker line then line
    else
      match pyJsonLoads (pyStrip (afterColon line)) with
      | none => line
      | some v =>
        match pyIn packEntry v with
        | none => line
        | some true => rpKey ++ dumps v ++ ['\n']
        | some false =>
          match v with
          | .jarr xs => rpKey ++ dumps (.jarr (xs ++ [.jstr packEntry])) ++ ['\n']
          | _ => line
  else line

/-- The line written when the key is absent (or the file does not exist). -/
def defaultRpLine : List Char := "resourcePacks:[\"file/MCV_SkinPack\"]\n".data

/-- The registration loop over the lines of an existing options file. -/
def registerLines (ls : List (List Char)) : List (List Char) :=
  let newLines := ls.map patchLine
  if ls.any (fun l => rpKey.isPrefixOf l) then newLines else newLines ++ [defaultRpLine]

/-- Model of `readlines` on text already in memory: split after each newline,
keeping the newline; a final unterminated chunk is its own line. -/
def splitLinesGo (cur : List Char) : List Char → List (List Char)
  | [] => if cur.isEmpty then [] else [cur.reverse]
  | c :: cs =>
    if c = '\n' then (cur.reverse ++ ['\n']) :: splitLinesGo [] cs
    else splitLinesGo (c :: cur) cs

def splitLines (cs : List Char) : List (List Char) := splitLinesGo [] cs

def joinLines (ls : List (List Char)) : List Char := ls.flatten

/-- Registration on the whole content of an existing options file. -/
def registerContent (content : List Char) : List Char :=
  joinLines (registerLines (splitLines content))

/-- The registration step: `none` is a missing options file, in which case
the file is created with the single default line. -/
def registerStep : Option (List Char) → List Char
  | none => defaultRpLine
  | some content => registerContent content

/-! ## Lemmas about the registration step -/

theorem escapeStr_append (a b : List Char) :
    escapeStr (a ++ b) = escapeStr a ++ escapeStr b := by
  simp [escapeStr, List.flatMap_append]

theorem escapeStr_packEntry : escapeStr packEntry = packEntry := by decide

theorem mcv_infix_packEntry : mcvMarker <:+: packEntry := by decide

/-- If the pack entry occurs in a string, the marker survives escaping. -/
theorem marker_infix_escape (s : List Char) (h : packEntry <:+: s) :
    mcvMarker <:+: escapeStr s := by
  obtain ⟨p, q, hs⟩ := h
  subst hs
  rw [escapeStr_append, escapeStr_append, escapeStr_packEntry]
  obtain ⟨a, b, hm⟩ := mcv_infix_packEntry
  exact ⟨escapeStr p ++ a, b ++ escapeStr q, by rw [← hm]; simp⟩

theorem mem_dumpsList_infix (v : JVal) (xs : List JVal) (h : v ∈ xs) :
    dumps v <:+: dumpsList xs := by
  induction xs with
  | nil => cases h
  | cons w t ih =>
    rcases List.mem_cons.mp h with h | h
    · subst h
      cases t with
      | nil => simp [dumpsList]
      | cons u t' =>
        exact ⟨[], sepComma ++ dumpsList (u :: t'), by simp [dumpsList]⟩
    · cases t with
      | nil => cases h
      | cons u t' =>
        have : dumps v <:+: dumpsList (u :: t') := ih h
        obtain ⟨a, b, hd⟩ := this
        exact ⟨dumps w ++ sepComma ++ a, b, by rw [dumpsList]; rw [← hd]; simp⟩

theorem mem_dumpsMembers_infix (kv : List Char × JVal)
    (ms : List (List Char × JVal)) (h : kv ∈ ms) :
    dumpStr kv.1 <:+: dumpsMembers ms := by
  induction ms with
  | nil => cases h
  | cons kw t ih =>
    rcases List.mem_cons.mp h with h | h
    · subst h
      cases t with
      | nil => exact ⟨[], sepColon ++ dumps kv.2, by simp [dumpsMembers]⟩
      | cons ku t' =>
        exact ⟨[], sepColon ++ dumps kv.2 ++ sepComma ++ dumpsMembers (ku :: t'), by
          simp [dumpsMembers]⟩
    · cases t with
      | nil => cases h
      | cons ku t' =>
        obtain ⟨a, b, hd⟩ := ih h
        exact ⟨dumpStr kw.1 ++ sepColon ++ dumps kw.2 ++ sepComma ++ a, b, by
          rw [dumpsMembers]; rw [← hd]; simp⟩

theorem mcv_infix_dumpStr_packEntry : mcvMarker <:+: dumpStr packEntry := by decide

/-- If Python's `in` finds the pack entry in a decoded value, the marker
occurs in that value's re-serialisation. -/
theorem marker_infix_dumps_of_pyIn (v : JVal) (h : pyIn packEntry v = some true) :
    mcvMarker <:+: dumps v := by
  cases v with
  | jstr s =>
    simp only [pyIn, Option.some.injEq] at h
    have hinf : packEntry <:+: s := of_decide_eq_true h
    have := marker_infix_escape s hinf
    obtain ⟨a, b, hd⟩ := this
    exact ⟨'"' :: a, b ++ ['"'], by simp [dumps, dumpStr, ← hd]⟩
  | jarr xs =>
    simp only [pyIn, Option.some.injEq, List.any_eq_true] at h
    obtain ⟨w, hw, hww⟩ := h
    have hws : w = .jstr packEntry := by
      cases w <;> simp [jeqStr] at hww
      case jstr t => subst hww; rfl
    subst hws
    have h1 : dumps (JVal.jstr packEntry) <:+: dumpsList xs := mem_dumpsList_infix _ xs hw
    have h2 : mcvMarker <:+: dumps (JVal.jstr packEntry) := mcv_infix_dumpStr_packEntry
    obtain ⟨a, b, hd⟩ := h2.trans h1
    exact ⟨'[' :: a, b ++ [']'], by simp [dumps, ← hd]⟩
  | jobj ms =>
    simp only [pyIn, Option.some.injEq, List.any_eq_true] at h
    obtain ⟨kv, hkv, hk⟩ := h
    have h1 : dumpStr kv.1 <:+: dumpsMembers ms := mem_dumpsMembers_infix kv ms hkv
    rw [of_decide_eq_true hk] at h1
    obtain ⟨a, b, hd⟩ := mcv_infix_dumpStr_packEntry.trans h1
    exact ⟨Char.ofNat 123 :: a, b ++ [Char.ofNat 125], by simp [dumps, ← hd]⟩
  | jnum t => simp [pyIn] at h
  | jnan => simp [pyIn] at h
  | jinf => simp [pyIn] at h
  | jninf => simp [pyIn] at h
  | jbool b => simp [pyIn] at h
  | jnull => simp [pyIn] at h

theorem marker_infix_dumps_appended (xs : List JVal) :
    mcvMarker <:+: dumps (.jarr (xs ++ [.jstr packEntry])) := by
  have h1 : dumps (JVal.jstr packEntry) <:+: dumpsList (xs ++ [.jstr packEntry]) :=
    mem_dumpsList_infix _ _ (by simp)
  obtain ⟨a, b, hd⟩ := mcv_infix_dumpStr_packEntry.trans h1
  exact ⟨'[' :: a, b ++ [']'], by simp [dumps, ← hd]⟩

theorem patchLine_not_key (l : List Char) (h : rpKey.isPrefixOf l = false) :
    patchLine l = l := by
  simp [patchLine, h]

theorem patchLine_marker_id (l : List Char) (h : listInfixOf mcvMarker l = true) :
    patchLine l = l := by
  by_cases hp : rpKey.isPrefixOf l <;> simp [patchLine, hp, h]

theorem rpKey_isPrefixOf_append (rest : List Char) :
    rpKey.isPrefixOf (rpKey ++ rest) = true := by
  rw [ List.isPrefixOf_iff_prefix]
  exact List.prefix_append _ _

theorem listInfixOf_marker_rewrite (v : JVal) (h : mcvMarker <:+: dumps v) :
    listInfixOf mcvMarker (rpKey ++ dumps v ++ ['\n']) = true := by
  apply decide_eq_true
  obtain ⟨a, b, hd⟩ := h
  exact ⟨rpKey ++ a, b ++ ['\n'], by rw [← hd]; simp⟩

theorem patchLine_idem_of_fix (l : List Char) (h : patchLine l = l) :
    patchLine (patchLine l) = patchLine l := by rw [h]; exact h

/-- The registration loop body is idempotent on every single line. -/
theorem patchLine_idem (l : List Char) : patchLine (patchLine l) = patchLine l := by
  cases hp : rpKey.isPrefixOf l with
  | false => exact patchLine_idem_of_fix l (patchLine_not_key l hp)
  | true =>
    cases hm : listInfixOf mcvMarker l with
    | true => exact patchLine_idem_of_fix l (patchLine_marker_id l hm)
    | false =>
      cases hj : pyJsonLoads (pyStrip (afterColon l)) with
      | none => exact patchLine_idem_of_fix l (by simp [patchLine, hp, hm, hj])
      | some v =>
        cases hin : pyIn packEntry v with
        | none => exact patchLine_idem_of_fix l (by simp [patchLine, hp, hm, hj, hin])
        | some b =>
          cases b with
          | true =>
            have hres : patchLine l = rpKey ++ dumps v ++ ['\n'] := by
              simp [patchLine, hp, hm, hj, hin]
            rw [hres,
              patchLine_marker_id _
                (listInfixOf_marker_rewrite v (marker_infix_dumps_of_pyIn v hin))]
          | false =>
            cases v with
            | jarr xs =>
              have hres :
                  patchLine l = rpKey ++ dumps (.jarr (xs ++ [.jstr packEntry])) ++ ['\n'] := by
                simp [patchLine, hp, hm, hj, hin]
              rw [hres,
                patchLine_marker_id _
                  (listInfixOf_marker_rewrite _ (marker_infix_dumps_appended xs))]
            | jstr s => exact patchLine_idem_of_fix l (by simp [patchLine, hp, hm, hj, hin])
            | jnum t => exact patchLine_idem_of_fix l (by simp [patchLine, hp, hm, hj, hin])
            | jnan => exact patchLine_idem_of_fix l (by simp [patchLine, hp, hm, hj, hin])
            | jinf => exact patchLine_idem_of_fix l (by simp [patchLine, hp, hm, hj, hin])
            | jninf => exact patchLine_idem_of_fix l (by simp [patchLine, hp, hm, hj, hin])
            | jbool b => exact patchLine_idem_of_fix l (by simp [patchLine, hp, hm, hj, hin])
            | jnull => exact patchLine_idem_of_fix l (by simp [patchLine, hp, hm, hj, hin])
            | jobj ms => exact patchLine_idem_of_fix l (by simp [patchLine, hp, hm, hj, hin])

/-- Patching preserves the property of starting with the resource-pack key. -/
theorem patchLine_key (l : List Char) (hp : rpKey.isPrefixOf l = true) :
    rpKey.isPrefixOf (patchLine l) = true := by
  cases hm : listInfixOf mcvMarker l with
  | true => rw [patchLine_marker_id l hm]; exact hp
  | false =>
    cases hj : pyJsonLoads (pyStrip (afterColon l)) with
    | none => simpa [patchLine, hp, hm, hj] using hp
    | some v =>
      cases hin : pyIn packEntry v with
      | none => simpa [patchLine, hp, hm, hj, hin] using hp
      | some b =>
        cases b with
        | true =>
          have hres : patchLine l = rpKey ++ dumps v ++ ['\n'] := by
            simp [patchLine, hp, hm, hj, hin]
          rw [hres, List.append_assoc]
          exact rpKey_isPrefixOf_append _
        | false =>
          cases v with
          | jarr xs =>
            have hres :
                patchLine l = rpKey ++ dumps (.jarr (xs ++ [.jstr packEntry])) ++ ['\n'] := by
              simp [patchLine, hp, hm, hj, hin]
            rw [hres, List.append_assoc]
            exact rpKey_isPrefixOf_append _
          | jstr s => simpa [patchLine, hp, hm, hj, hin] using hp
          | jnum t => simpa [patchLine, hp, hm, hj, hin] using hp
          | jnan => simpa [patchLine, hp, hm, hj, hin] using hp
          | jinf => simpa [patchLine, hp, hm, hj, hin] using hp
          | jninf => simpa [patchLine, hp, hm, hj, hin] using hp
          | jbool b => simpa [patchLine, hp, hm, hj, hin] using hp
          | jnull => simpa [patchLine, hp, hm, hj, hin] using hp
          | jobj ms => simpa [patchLine, hp, hm, hj, hin] using hp

/-! ## Serialised JSON never contains a raw newline -/

theorem hexDigitChar_ne_nl (n : Nat) : hexDigitChar n ≠ '\n' := by
  have h : n % 16 < 16 := Nat.mod_lt _ (by norm_num)
  have hall : ∀ m, m < 16 → "0123456789abcdef".data.getD m '0' ≠ '\n' := by decide
  simpa [hexDigitChar] using hall _ h

theorem nl_not_mem_hex4 (n : Nat) : '\n' ∉ hex4 n := by
  intro hmem
  simp only [hex4, List.mem_cons, List.not_mem_nil, or_false] at hmem
  rcases hmem with h | h | h | h <;> exact hexDigitChar_ne_nl _ h.symm

set_option maxHeartbeats 2000000 in
theorem nl_not_mem_escChar (c : Char) : '\n' ∉ escChar c := by
  intro hm
  unfold escChar at hm
  split_ifs at hm with h1 h2 h3 h4 h5 h6 h7 h8 h9 h10
  · exact absurd hm (by decide)
  · exact absurd hm (by decide)
  · exact absurd hm (by decide)
  · exact absurd hm (by decide)
  · exact absurd hm (by decide)
  · exact absurd hm (by decide)
  · exact absurd hm (by decide)
  · simp only [List.mem_cons] at hm
    rcases hm with h | h | h
    · exact absurd h (by decide)
    · exact absurd h (by decide)
    · exact nl_not_mem_hex4 _ h
  · simp only [List.mem_singleton] at hm
    exact h3 hm.symm
  · simp only [List.mem_cons] at hm
    rcases hm with h | h | h
    · exact absurd h (by decide)
    · exact absurd h (by decide)
    · exact nl_not_mem_hex4 _ h
  · simp only [List.mem_append, List.mem_cons] at hm
    rcases hm with (h | h | h) | (h | h | h)
    · exact absurd h (by decide)
    · exact absurd h (by decide)
    · exact nl_not_mem_hex4 _ h
    · exact absurd h (by decide)
    · exact absurd h (by decide)
    · exact nl_not_mem_hex4 _ h

theorem nl_not_mem_escapeStr (s : List Char) : '\n' ∉ escapeStr s := by
  intro h
  simp only [escapeStr, List.mem_flatMap] at h
  obtain ⟨c, _, hc⟩ := h
  exact nl_not_mem_escChar c hc

theorem nl_not_mem_dumpStr (s : List Char) : '\n' ∉ dumpStr s := by
  intro h
  simp only [dumpStr, List.mem_cons, List.mem_append, List.mem_singleton] at h
  rcases h with (h | h) | h
  · exact absurd h (by decide)
  · exact nl_not_mem_escapeStr s h
  · exact absurd h (by decide)

mutual
theorem nl_not_mem_dumps : ∀ (v : JVal), '\n' ∉ dumps v
  | .jstr s => by
    intro h
    rw [dumps] at h
    exact nl_not_mem_dumpStr s h
  | .jnum t => by
    intro h
    rw [dumps] at h
    have := List.all_eq_true.mp t.property _ h
    simp [isNumChar] at this
  | .jnan => by decide
  | .jinf => by decide
  | .jninf => by decide
  | .jbool true => by decide
  | .jbool false => by decide
  | .jnull => by decide
  | .jarr xs => by
    intro h
    rw [dumps] at h
    simp only [List.mem_cons, List.mem_append, List.mem_singleton] at h
    rcases h with (h | h) | h
    · exact absurd h (by decide)
    · exact nl_not_mem_dumpsList xs h
    · exact absurd h (by decide)
  | .jobj ms => by
    intro h
    rw [dumps] at h
    simp only [List.mem_cons, List.mem_append, List.mem_singleton] at h
    rcases h with (h | h) | h
    · exact absurd h (by decide)
    · exact nl_not_mem_dumpsMembers ms h
    · exact absurd h (by decide)
theorem nl_not_mem_dumpsList : ∀ (xs : List JVal), '\n' ∉ dumpsList xs
  | [] => by simp [dumpsList]
  | [v] => by
    intro h
    rw [dumpsList] at h
    exact nl_not_mem_dumps v h
  | v :: w :: t => by
    intro h
    rw [dumpsList] at h
    simp only [List.mem_append] at h
    rcases h with (h | h) | h
    · exact nl_not_mem_dumps v h
    · exact absurd h (by decide)
    · exact nl_not_mem_dumpsList (w :: t) h
theorem nl_not_mem_dumpsMembers : ∀ (ms : List (List Char × JVal)), '\n' ∉ dumpsMembers ms
  | [] => by simp [dumpsMembers]
  | [kv] => by
    intro h
    rw [dumpsMembers] at h
    simp only [List.mem_append] at h
    rcases h with (h | h) | h
    · exact nl_not_mem_dumpStr kv.1 h
    · exact absurd h (by decide)
    · exact nl_not_mem_dumps kv.2 h
  | kv :: kw :: t => by
    intro h
    rw [dumpsMembers] at h
    simp only [List.mem_append] at h
    rcases h with ((((h | h) | h) | h) | h)
    · exact nl_not_mem_dumpStr kv.1 h
    · exact absurd h (by decide)
    · exact nl_not_mem_dumps kv.2 h
    · exact absurd h (by decide)
    · exact nl_not_mem_dumpsMembers (kw :: t) h
end

/-! ## Line discipline of `readlines`/`writelines` -/

/-- A line as `readlines` produces it from newline-terminated text. -/
def termLine (l : List Char) : Prop := ∃ b, l = b ++ ['\n'] ∧ '\n' ∉ b

theorem splitLinesGo_terminated :
    ∀ (cs cur : List Char), '\n' ∉ cur → cs.getLast? = some '\n' →
      ∀ l ∈ splitLinesGo cur cs, termLine l := by
  intro cs
  induction cs with
  | nil => intro cur _ hlast; simp at hlast
  | cons c cs' ih =>
    intro cur hcur hlast l hl
    by_cases hc : c = '\n'
    · subst hc
      rw [splitLinesGo, if_pos rfl] at hl
      rcases List.mem_cons.mp hl with h | h
      · exact ⟨cur.reverse, h, by simpa using hcur⟩
      · cases cs' with
        | nil => simp [splitLinesGo] at h
        | cons d ds =>
          have hlast' : (d :: ds).getLast? = some '\n' := by
            rw [List.getLast?_cons_cons] at hlast
            exact hlast
          exact ih [] (by simp) hlast' l h
    · rw [splitLinesGo, if_neg hc] at hl
      have hne : cs' ≠ [] := by
        intro he
        subst he
        simp at hlast
        exact hc hlast
      have hlast' : cs'.getLast? = some '\n' := by
        cases cs' with
        | nil => exact absurd rfl hne
        | cons d ds =>
          rw [List.getLast?_cons_cons] at hlast
          exact hlast
      refine ih (c :: cur) ?_ hlast' l hl
      intro hm
      rcases List.mem_cons.mp hm with h | h
      · exact hc h.symm
      · exact hcur h

theorem splitLinesGo_body (b : List Char) :
    ∀ (cur rest : List Char), '\n' ∉ b →
      splitLinesGo cur (b ++ '\n' :: rest)
        = (cur.reverse ++ b ++ ['\n']) :: splitLinesGo [] rest := by
  induction b with
  | nil => intro cur rest _; simp [splitLinesGo]
  | cons x b' ih =>
    intro cur rest hb
    have hx : ¬ x = '\n' := fun h => hb (by rw [h]; exact List.mem_cons_self _ _)
    rw [List.cons_append, splitLinesGo, if_neg hx,
      ih (x :: cur) rest (fun h => hb (List.mem_cons_of_mem x h))]
    simp

theorem splitLines_join : ∀ (ls : List (List Char)), (∀ l ∈ ls, termLine l) →
    splitLines (joinLines ls) = ls
  | [], _ => by simp [splitLines, splitLinesGo, joinLines]
  | l :: t, h => by
    obtain ⟨b, hb, hnb⟩ := h l (List.mem_cons_self _ _)
    have ht := fun x hx => h x (List.mem_cons_of_mem _ hx)
    have hjoin : joinLines (l :: t) = b ++ '\n' :: joinLines t := by
      rw [joinLines, List.flatten_cons, hb]
      simp [joinLines]
    rw [hjoin, splitLines, splitLinesGo_body b [] (joinLines t) hnb,
      List.reverse_nil, List.nil_append, ← hb]
    exact congrArg (l :: ·) (splitLines_join t ht)

/-- Case analysis for the registration loop body: a line is either left
unchanged or rewritten to the key followed by a re-serialised value. -/
theorem patchLine_cases (l : List Char) :
    patchLine l = l ∨ ∃ v : JVal, patchLine l = rpKey ++ dumps v ++ ['\n'] := by
  cases hp : rpKey.isPrefixOf l with
  | false => exact Or.inl (patchLine_not_key l hp)
  | true =>
    cases hm : listInfixOf mcvMarker l with
    | true => exact Or.inl (patchLine_marker_id l hm)
    | false =>
      cases hj : pyJsonLoads (pyStrip (afterColon l)) with
      | none => exact Or.inl (by simp [patchLine, hp, hm, hj])
      | some v =>
        cases hin : pyIn packEntry v with
        | none => exact Or.inl (by simp [patchLine, hp, hm, hj, hin])
        | some b =>
          cases b with
          | true => exact Or.inr ⟨v, by simp [patchLine, hp, hm, hj, hin]⟩
          | false =>
            cases v with
            | jarr xs =>
              exact Or.inr ⟨.jarr (xs ++ [.jstr packEntry]), by
                simp [patchLine, hp, hm, hj, hin]⟩
            | jstr s => exact Or.inl (by simp [patchLine, hp, hm, hj, hin])
            | jnum t => exact Or.inl (by simp [patchLine, hp, hm, hj, hin])
            | jnan => exact Or.inl (by simp [patchLine, hp, hm, hj, hin])
            | jinf => exact Or.inl (by simp [patchLine, hp, hm, hj, hin])
            | jninf => exact Or.inl (by simp [patchLine, hp, hm, hj, hin])
            | jbool b => exact Or.inl (by simp [patchLine, hp, hm, hj, hin])
            | jnull => exact Or.inl (by simp [patchLine, hp, hm, hj, hin])
            | jobj ms => exact Or.inl (by simp [patchLine, hp, hm, hj, hin])

theorem termLine_patchLine (l : List Char) (h : termLine l) :
    termLine (patchLine l) := by
  rcases patchLine_cases l with he | ⟨v, he⟩
  · rwa [he]
  · refine ⟨rpKey ++ dumps v, by rw [he, List.append_assoc], ?_⟩
    intro hmem
    rcases List.mem_append.mp hmem with h1 | h1
    · exact absurd h1 (by decide)
    · exact nl_not_mem_dumps v h1

theorem termLine_defaultRpLine : termLine defaultRpLine :=
  ⟨"resourcePacks:[\"file/MCV_SkinPack\"]".data, by decide, by decide⟩

theorem patchLine_defaultRpLine : patchLine defaultRpLine = defaultRpLine :=
  patchLine_marker_id _ (by decide)

/-! ## Idempotence of registration on newline-terminated files -/

theorem registerLines_eq (ls : List (List Char)) :
    registerLines ls = ls.map patchLine ++
      (if ls.any (fun l => rpKey.isPrefixOf l) then [] else [defaultRpLine]) := by
  by_cases hf : ls.any (fun l => rpKey.isPrefixOf l) <;> simp [registerLines, hf]

theorem termLine_mem_registerLines (ls : List (List Char))
    (h : ∀ l ∈ ls, termLine l) :
    ∀ l ∈ registerLines ls, termLine l := by
  intro l hl
  rw [registerLines_eq] at hl
  rcases List.mem_append.mp hl with h1 | h1
  · obtain ⟨l₀, hl₀, he⟩ := List.mem_map.mp h1
    exact he ▸ termLine_patchLine l₀ (h l₀ hl₀)
  · by_cases hf : ls.any (fun l => rpKey.isPrefixOf l) <;> simp [hf] at h1
    exact h1 ▸ termLine_defaultRpLine

theorem registerLines_any_key (ls : List (List Char)) :
    (registerLines ls).any (fun l => rpKey.isPrefixOf l) = true := by
  cases hf : ls.any (fun l => rpKey.isPrefixOf l) with
  | true =>
    obtain ⟨l₀, hl₀, hp⟩ := List.any_eq_true.mp hf
    rw [registerLines_eq, hf]
    refine List.any_eq_true.mpr ⟨patchLine l₀, ?_, patchLine_key l₀ hp⟩
    simp only [if_true, List.append_nil]
    exact List.mem_map.mpr ⟨l₀, hl₀, rfl⟩
  | false =>
    rw [registerLines_eq, hf]
    refine List.any_eq_true.mpr ⟨defaultRpLine, ?_, by decide⟩
    simp

theorem registerLines_idem (ls : List (List Char)) :
    registerLines (registerLines ls) = registerLines ls := by
  have hmap : ∀ ms : List (List Char),
      (ms.map patchLine).map patchLine = ms.map patchLine := by
    intro ms
    rw [List.map_map]
    exact List.map_congr_left (fun l _ => by
      simp only [Function.comp_apply, patchLine_idem l])
  rw [registerLines_eq (registerLines ls), registerLines_any_key, if_pos rfl,
    List.append_nil, registerLines_eq ls]
  by_cases hf : ls.any (fun l => rpKey.isPrefixOf l)
  · rw [if_pos hf, List.append_nil]
    exact hmap ls
  · rw [if_neg hf, List.map_append, hmap]
    simp [patchLine_defaultRpLine]

/-- C2 (amended): registration is idempotent provided the options-file
content (when the file exists) is empty or ends with a newline.  The
counterexample shows the restriction is necessary: on a file whose last
line is unterminated and that contains no resource-pack line, `writelines`
glues the appended registration line onto the final line, so a second
registration appends another copy. -/
theorem claim_C2_register_idempotent (c : Option (List Char))
    (h : ∀ s ∈ c, s = [] ∨ s.getLast? = some '\n') :
    registerStep (some (registerStep c)) = registerStep c := by
  cases c with
  | none =>
    show registerContent defaultRpLine = defaultRpLine
    decide
  | some content =>
    rcases h content rfl with he | he
    · subst he
      show registerContent (registerContent []) = registerContent []
      decide
    · show registerContent (registerContent content) = registerContent content
      unfold registerContent
      have hterm : ∀ l ∈ splitLines content, termLine l :=
        splitLinesGo_terminated content [] (by simp) he
      rw [splitLines_join _ (termLine_mem_registerLines _ hterm), registerLines_idem]

theorem claim_C2_witness :
    (∀ s ∈ some "fov:1.0\n".data, s = [] ∨ s.getLast? = some '\n') ∧
    registerStep (some (registerStep (some "fov:1.0\n".data)))
      = registerStep (some "fov:1.0\n".data) :=
  ⟨by decide, claim_C2_register_idempotent (some "fov:1.0\n".data) (by decide)⟩

/-- C2 counterexample: on the options-file content `"x"` (a single line
with no trailing newline and no resource-pack line) registering twice does
not equal registering once — the first registration glues
`resourcePacks:["file/MCV_SkinPack"]` onto the `x`, and the second appends
a further copy. -/
theorem claim_C2_counterexample :
    registerContent (registerContent "x".data) ≠ registerContent "x".data := by
  decide

/-! ## Frame effects of registration (claims C3, C4) -/

/-- An options line whose value is a JSON string (not an array) that decodes
to text containing the pack id, while the raw line does not contain the
marker `MCV_SkinPack`. -/
def c3Line : List Char := "resourcePacks:\"a file/MCV_\\u0053kinPack\"\n".data

/-- C3 counterexample: the claim says a resource-pack line whose value
fails to parse as a JSON array is left byte-for-byte untouched; on
`c3Line` the value parses as a JSON string (not an array), Python's `in`
finds the pack id in the decoded text, and the line is rewritten as the
string's re-serialisation, dropping the `S` spelling. -/
theorem claim_C3_counterexample :
    rpKey.isPrefixOf c3Line = true ∧
    (pyJsonLoads (pyStrip (afterColon c3Line))).map isArrJ = some false ∧
    patchLine c3Line ≠ c3Line ∧
    registerContent c3Line ≠ c3Line :=
  ⟨by decide, by decide, by decide, by decide⟩

/-- C3 (amended): registration treats the options file line by line:
(1) a line not starting with the resource-pack key is never changed;
(2) the output is the per-line image of the input, in order, plus at most
one appended default line — no line is removed or reordered;
(3) on a line whose value parses as a JSON array, the pre-existing entries
are preserved in order (the line is untouched, re-serialised unchanged, or
re-serialised with the pack id appended at the end);
(4) a line whose value fails to parse as JSON at all is untouched;
(5) a line whose value parses as a non-array is untouched unless Python
membership reports the pack id inside the value (possible only via escaped
spellings), in which case the line is re-serialised. -/
theorem claim_C3_frame_effects :
    (∀ l : List Char, rpKey.isPrefixOf l = false → patchLine l = l) ∧
    (∀ ls : List (List Char),
       registerLines ls = ls.map patchLine ∨
       registerLines ls = ls.map patchLine ++ [defaultRpLine]) ∧
    (∀ (l : List Char) (xs : List JVal), rpKey.isPrefixOf l = true →
       pyJsonLoads (pyStrip (afterColon l)) = some (.jarr xs) →
       patchLine l = l ∨
       patchLine l = rpKey ++ dumps (.jarr xs) ++ ['\n'] ∨
       patchLine l = rpKey ++ dumps (.jarr (xs ++ [.jstr packEntry])) ++ ['\n']) ∧
    (∀ l : List Char, pyJsonLoads (pyStrip (afterColon l)) = none →
       patchLine l = l) ∧
    (∀ (l : List Char) (v : JVal), pyJsonLoads (pyStrip (afterColon l)) = some v →
       isArrJ v = false → pyIn packEntry v ≠ some true → patchLine l = l) := by
  refine ⟨patchLine_not_key, ?_, ?_, ?_, ?_⟩
  · intro ls
    rcases registerLines_eq ls with h
    by_cases hf : ls.any (fun l => rpKey.isPrefixOf l)
    · left; rw [h, if_pos hf, List.append_nil]
    · right; rw [h, if_neg hf]
  · intro l xs hp hj
    cases hm : listInfixOf mcvMarker l with
    | true => exact Or.inl (patchLine_marker_id l hm)
    | false =>
      cases hb : xs.any (fun v => jeqStr v packEntry) with
      | true =>
        refine Or.inr (Or.inl ?_)
        have hin : pyIn packEntry (.jarr xs) = some true := by simp [pyIn, hb]
        simp [patchLine, hp, hm, hj, hin]
      | false =>
        refine Or.inr (Or.inr ?_)
        have hin : pyIn packEntry (.jarr xs) = some false := by simp [pyIn, hb]
        simp [patchLine, hp, hm, hj, hin]
  · intro l hj
    cases hp : rpKey.isPrefixOf l with
    | false => exact patchLine_not_key l hp
    | true =>
      cases hm : listInfixOf mcvMarker l with
      | true => exact patchLine_marker_id l hm
      | false => simp [patchLine, hp, hm, hj]
  · intro l v hj harr hin
    cases hp : rpKey.isPrefixOf l with
    | false => exact patchLine_not_key l hp
    | true =>
      cases hm : listInfixOf mcvMarker l with
      | true => exact patchLine_marker_id l hm
      | false =>
        cases hv : pyIn packEntry v with
        | none => simp [patchLine, hp, hm, hj, hv]
        | some b =>
          cases b with
          | true => exact absurd hv hin
          | false =>
            cases v with
            | jarr xs => simp [isArrJ] at harr
            | jstr s => simp [patchLine, hp, hm, hj, hv]
            | jnum t => simp [patchLine, hp, hm, hj, hv]
            | jnan => simp [patchLine, hp, hm, hj, hv]
            | jinf => simp [patchLine, hp, hm, hj, hv]
            | jninf => simp [patchLine, hp, hm, hj, hv]
            | jbool b => simp [patchLine, hp, hm, hj, hv]
            | jnull => simp [patchLine, hp, hm, hj, hv]
            | jobj ms => simp [patchLine, hp, hm, hj, hv]

theorem claim_C3_witness :
    (rpKey.isPrefixOf "fov:1.0\n".data = false ∧
      patchLine "fov:1.0\n".data = "fov:1.0\n".data) ∧
    (patchLine "resourcePacks: garbage\n".data = "resourcePacks: garbage\n".data) :=
  ⟨⟨by decide, claim_C3_frame_effects.1 "fov:1.0\n".data (by decide)⟩,
    claim_C3_frame_effects.2.2.2.1 "resourcePacks: garbage\n".data (by rfl)⟩

/-- C4 counterexample: registering on a file containing
`resourcePacks:["other/Pack"]` yields
`resourcePacks:["other/Pack", "file/MCV_SkinPack"]` — `json.dumps` uses a
comma-space separator, so the spec's claimed byte-exact result
`resourcePacks:["other/Pack","file/MCV_SkinPack"]` is not produced. -/
theorem claim_C4_counterexample :
    registerContent "resourcePacks:[\"other/Pack\"]\n".data
      = "resourcePacks:[\"other/Pack\", \"file/MCV_SkinPack\"]\n".data ∧
    "resourcePacks:[\"other/Pack\", \"file/MCV_SkinPack\"]\n".data
      ≠ "resourcePacks:[\"other/Pack\",\"file/MCV_SkinPack\"]\n".data :=
  ⟨by decide, by decide⟩

/-- C4 (amended): on an options line whose value parses as a JSON array:
if the pack marker already occurs in the raw line the line is unchanged;
otherwise the array — with the pack id appended at the end when not
already a member — replaces the value, re-serialised with `json.dumps`'s
comma-space separator; in particular `resourcePacks:["other/Pack"]`
becomes `resourcePacks:["other/Pack", "file/MCV_SkinPack"]`. -/
theorem claim_C4_append_semantics :
    (∀ (l : List Char) (xs : List JVal), rpKey.isPrefixOf l = true →
       pyJsonLoads (pyStrip (afterColon l)) = some (.jarr xs) →
       (listInfixOf mcvMarker l = true → patchLine l = l) ∧
       (listInfixOf mcvMarker l = false →
         patchLine l = rpKey ++
           dumps (.jarr (if xs.any (fun v => jeqStr v packEntry) then xs
                         else xs ++ [.jstr packEntry])) ++ ['\n'])) ∧
    registerContent "resourcePacks:[\"other/Pack\"]\n".data
      = "resourcePacks:[\"other/Pack\", \"file/MCV_SkinPack\"]\n".data := by
  constructor
  · intro l xs hp hj
    constructor
    · intro hm
      exact patchLine_marker_id l hm
    · intro hm
      cases hb : xs.any (fun v => jeqStr v packEntry) with
      | true =>
        have hin : pyIn packEntry (.jarr xs) = some true := by simp [pyIn, hb]
        simp [patchLine, hp, hm, hj, hin]
      | false =>
        have hin : pyIn packEntry (.jarr xs) = some false := by simp [pyIn, hb]
        simp [patchLine, hp, hm, hj, hin]
  · decide

theorem claim_C4_witness :
    patchLine "resourcePacks:[]\n".data = rpKey ++
      dumps (.jarr (if ([] : List JVal).any (fun v => jeqStr v packEntry) then []
                    else [] ++ [.jstr packEntry])) ++ ['\n'] :=
  (claim_C4_append_semantics.1 "resourcePacks:[]\n".data [] (by decide)
    (by rfl)).2 (by decide)

/-! ## Model of `uuid.uuid3`: RFC 4122 name-based UUID over MD5 (RFC 1321)

The worker computes `str(uuid.uuid3(uuid.NAMESPACE_DNS, username))`.
Machine words are naturals reduced modulo `2 ^ 32`. -/

def w32 (n : Nat) : Nat := n % 4294967296

def wnot (n : Nat) : Nat := 4294967295 - n

def rotl32 (x s : Nat) : Nat := ((x * 2 ^ s) % 4294967296) ||| (x / 2 ^ (32 - s))

def md5F (b c d : Nat) : Nat := (b &&& c) ||| (wnot b &&& d)

def md5G (b c d : Nat) : Nat := (b &&& d) ||| (c &&& wnot d)

def md5H (b c d : Nat) : Nat := b ^^^ c ^^^ d

def md5I (b c d : Nat) : Nat := c ^^^ (b ||| wnot d)

def md5K : List Nat :=
  [0xd76aa478, 0xe8c7b756, 0x242070db, 0xc1bdceee,
   0xf57c0faf, 0x4787c62a, 0xa8304613, 0xfd469501,
   0x698098d8, 0x8b44f7af, 0xffff5bb1, 0x895cd7be,
   0x6b901122, 0xfd987193, 0xa679438e, 0x49b40821,
   0xf61e2562, 0xc040b340, 0x265e5a51, 0xe9b6c7aa,
   0xd62f105d, 0x02441453, 0xd8a1e681, 0xe7d3fbc8,
   0x21e1cde6, 0xc33707d6, 0xf4d50d87, 0x455a14ed,
   0xa9e3e905, 0xfcefa3f8, 0x676f02d9, 0x8d2a4c8a,
   0xfffa3942, 0x8771f681, 0x6d9d6122, 0xfde5380c,
   0xa4beea44, 0x4bdecfa9, 0xf6bb4b60, 0xbebfbc70,
   0x289b7ec6, 0xeaa127fa, 0xd4ef3085, 0x04881d05,
   0xd9d4d039, 0xe6db99e5, 0x1fa27cf8, 0xc4ac5665,
   0xf4292244, 0x432aff97, 0xab9423a7, 0xfc93a039,
   0x655b59c3, 0x8f0ccc92, 0xffeff47d, 0x85845dd1,
   0x6fa87e4f, 0xfe2ce6e0, 0xa3014314, 0x4e0811a1,
   0xf7537e82, 0xbd3af235, 0x2ad7d2bb, 0xeb86d391]

def md5S : List Nat :=
  [7, 12, 17, 22, 7, 12, 17, 22, 7, 12, 17, 22, 7, 12, 17, 22,
   5, 9, 14, 20, 5, 9, 14, 20, 5, 9, 14, 20, 5, 9, 14, 20,
   4, 11, 16, 23, 4, 11, 16, 23, 4, 11, 16, 23, 4, 11, 16, 23,
   6, 10, 15, 21, 6, 10, 15, 21, 6, 10, 15, 21, 6, 10, 15, 21]

def md5Op (M : Nat → Nat) (st : Nat × Nat × Nat × Nat) (i : Nat) :
    Nat × Nat × Nat × Nat :=
  let a := st.1
  let b := st.2.1
  let c := st.2.2.1
  let d := st.2.2.2
  let f := if i < 16 then md5F b c d else if i < 32 then md5G b c d
           else if i < 48 then md5H b c d else md5I b c d
  let g := if i < 16 then i else if i < 32 then (5 * i + 1) % 16
           else if i < 48 then (3 * i + 5) % 16 else (7 * i) % 16
  let tmp := w32 (a + f + md5K.getD i 0 + M g)
  (d, w32 (b + rotl32 tmp (md5S.getD i 0)), b, c)

def md5Block (st : Nat × Nat × Nat × Nat) (block : List Nat) :
    Nat × Nat × Nat × Nat :=
  let M := fun j => block.getD (4 * j) 0 + 256 * block.getD (4 * j + 1) 0 +
    65536 * block.getD (4 * j + 2) 0 + 16777216 * block.getD (4 * j + 3) 0
  let r := (List.range 64).foldl (md5Op M) st
  (w32 (st.1 + r.1), w32 (st.2.1 + r.2.1),
   w32 (st.2.2.1 + r.2.2.1), w32 (st.2.2.2 + r.2.2.2))

def md5Pad (msg : List Nat) : List Nat :=
  let bitLen := (8 * msg.length) % 18446744073709551616
  msg ++ 128 :: (List.replicate ((119 - msg.length % 64) % 64) 0 ++
    (List.range 8).map (fun i => bitLen / 256 ^ i % 256))

def wordLE (w : Nat) : List Nat :=
  [w % 256, w / 256 % 256, w / 65536 % 256, w / 16777216 % 256]

/-- MD5 of a byte string, as a list of 16 digest bytes. -/
def md5 (msg : List Nat) : List Nat :=
  let p := md5Pad msg
  let r := (List.range (p.length / 64)).foldl
      (fun st i => md5Block st ((p.drop (64 * i)).take 64))
      (0x67452301, 0xefcdab89, 0x98badcfe, 0x10325476)
  wordLE r.1 ++ wordLE r.2.1 ++ wordLE r.2.2.1 ++ wordLE r.2.2.2

def utf8Char (c : Char) : List Nat :=
  let n := c.toNat
  if n < 128 then [n]
  else if n < 2048 then [192 + n / 64, 128 + n % 64]
  else if n < 65536 then [224 + n / 4096, 128 + n / 64 % 64, 128 + n % 64]
  else [240 + n / 262144, 128 + n / 4096 % 64, 128 + n / 64 % 64, 128 + n % 64]

def utf8Encode (s : String) : List Nat := s.data.flatMap utf8Char

/-- The bytes of `uuid.NAMESPACE_DNS`. -/
def namespaceDNS : List Nat :=
  [0x6b, 0xa7, 0xb8, 0x10, 0x9d, 0xad, 0x11, 0xd1,
   0x80, 0xb4, 0x00, 0xc0, 0x4f, 0xd4, 0x30, 0xc8]

/-- Version (3) and variant (RFC 4122) bit overrides applied by
`uuid.UUID(bytes=digest, version=3)`. -/
def setUuidBits (bs : List Nat) : List Nat :=
  (bs.set 6 ((bs.getD 6 0 &&& 15) ||| 48)).set 8 ((bs.getD 8 0 &&& 63) ||| 128)

/-- The sixteen bytes of `uuid.uuid3(uuid.NAMESPACE_DNS, name)`. -/
def uuid3Bytes (name : String) : List Nat :=
  setUuidBits (md5 (namespaceDNS ++ utf8Encode name))

def bytesToNat (bs : List Nat) : Nat := bs.foldl (fun a b => a * 256 + b) 0

def toHexPad : Nat → Nat → List Char
  | 0, _ => []
  | len + 1, n => hexDigitChar (n / 16 ^ len) :: toHexPad len n

/-- Model of the `str(uuid.UUID(...))` dash placement over the 32 hex digits. -/
def uuidDashes (l : List Char) : List Char :=
  l.take 8 ++ '-' :: ((l.drop 8).take 4 ++ '-' :: ((l.drop 12).take 4 ++
    '-' :: ((l.drop 16).take 4 ++ '-' :: l.drop 20)))

/-- The offline identifier `str(uuid.uuid3(uuid.NAMESPACE_DNS, username))`
computed in step 7 of `LauncherWorker.run`. -/
def offlineUuid (name : String) : String :=
  ⟨uuidDashes (toHexPad 32 (bytesToNat (uuid3Bytes name)))⟩

/-! ## The orchestration worker (`LauncherWorker.run`)

Configuration is the dictionary built by the GUI; the environment record
supplies the outcome of each external call site (network, file system,
`minecraft_launcher_lib`), one field per call site in program order.  Every
step returns the events it emits (logs, external calls, signals) together
with its `Except` outcome; a raised exception propagates to the worker's
outer handler, which emits the error signal. -/

structure Config where
  username : String
  version : String
  ram_gb : Nat
  loader : String
  skin_type : String
  skin_path : String

inductive SkinImg where
  | embedded
  | localFile (path : String)
  | downloaded (url : String)
deriving DecidableEq

/-- The two body-model texture slots of the generated skin pack
(`.../player/wide/steve.png` and `.../player/slim/alex.png`), freshly wiped
at the start of the skin step. -/
structure SkinOutcome where
  wide : Option SkinImg
  slim : Option SkinImg
deriving DecidableEq

inductive Event where
  | log (msg : String)
  | getLatest
  | installMinecraft (id : String)
  | installFabric (base : String)
  | findForge (base : String)
  | installForge (ver : String)
  | getCommand (launchId : String) (uuid : String)
  | popen
  | finished
  | errorSignal (msg : String)
deriving DecidableEq

structure Env where
  latest : Except String String
  javaScan1 : Option String
  javaDownload : Except String Unit
  javaExtract : Except String Unit
  javaScan2 : Option String
  installedIds : List String
  installBase : Except String Unit
  loaderScan1 : List String
  fabricInstall : Except String Unit
  forgeFind : Except String (Option String)
  forgeInstall : Except String Unit
  loaderScan2 : List String
  skinLocalExists : Bool
  skinDownload : Except String Unit
  optionsFile : Option (List Char)
  commandBuild : Except String Unit
  spawn : Except String Unit

def strContains (needle hay : String) : Bool := decide (needle.data <:+: hay.data)

/-- Model of `str.lower()` restricted to ASCII letters (installed-version ids are
ASCII; Python also lowers non-ASCII letters, which never match the ASCII
loader markers). -/
def lowerChar (c : Char) : Char :=
  if 'A' ≤ c ∧ c ≤ 'Z' then Char.ofNat (c.toNat + 32) else c

def lowerStr (s : String) : String := ⟨s.data.map lowerChar⟩

/-- Step 1: resolve the version alias (`mcv.py` lines 82–85). -/
def resolveBase (version : String) (latest : Except String String) :
    List Event × Except String String :=
  if version = "latest" then
    match latest with
    | .error e => ([.log "🔍 Checking for latest version...", .getLatest], .error e)
    | .ok v => ([.log "🔍 Checking for latest version...", .getLatest,
                 .log ("🔥 Latest version is " ++ v)], .ok v)
  else ([], .ok version)

/-- Step 2: ensure a Java runtime (`mcv.py` lines 87–114). -/
def javaStep (scan1 : Option String) (download extract : Except String Unit)
    (scan2 : Option String) : List Event × Except String String :=
  match scan1 with
  | some p => ([.log "☕ Checking Java Runtime..."], .ok p)
  | none =>
    let ev0 : List Event := [.log "☕ Checking Java Runtime...",
                .log "⚠️ Java not found. Downloading Portable Java 21...",
                .log "⬇️ Java Runtime..."]
    match download with
    | .error e => (ev0, .error e)
    | .ok _ =>
      let ev1 := ev0 ++ [.log "✅ Java Runtime Done.", .log "📦 Extracting Java..."]
      match extract with
      | .error e => (ev1, .error e)
      | .ok _ =>
        match scan2 with
        | some p => (ev1, .ok p)
        | none => (ev1, .error "Failed to install Java.")

/-- Step 3: ensure the base game files (`mcv.py` lines 116–124). -/
def baseInstallStep (base : String) (installedIds : List String)
    (install : Except String Unit) : List Event × Except String Unit :=
  if installedIds.contains base then ([], .ok ())
  else
    match install with
    | .error e => ([.log ("📥 Installing Vanilla " ++ base ++ " (Base)..."),
                    .installMinecraft base], .error e)
    | .ok _ => ([.log ("📥 Installing Vanilla " ++ base ++ " (Base)..."),
                 .installMinecraft base], .ok ())

/-- The filter applied to installed versions in the Fabric branch:
the id must contain `"fabric"` case-insensitively and the base id
verbatim. -/
def fabricMatches (versions : List String) (base : String) : List String :=
  versions.filter (fun id => strContains "fabric" (lowerStr id) && strContains base id)

/-- Step 4, Fabric branch (`mcv.py` lines 129–156). -/
def fabricResolve (base : String) (scan1 : List String)
    (install : Except String Unit) (scan2 : List String) :
    List Event × Except String String :=
  let ev0 : List Event := [.log ("🧶 Checking Fabric for " ++ base ++ "...")]
  match fabricMatches scan1 base with
  | id :: _ => (ev0 ++ [.log ("✅ Fabric already installed: " ++ id)], .ok id)
  | [] =>
    let ev1 := ev0 ++ [.log ("⬇️ Installing Fabric for " ++ base ++ "..."),
                       .installFabric base]
    match install with
    | .error e => (ev1, .error e)
    | .ok _ =>
      match fabricMatches scan2 base with
      | [] => (ev1, .error "Fabric install failed - could not find version ID after install.")
      | id :: _ => (ev1 ++ [.log ("✅ Fabric Installed: " ++ id)], .ok id)

def forgeMatches (versions : List String) (base : String) : List String :=
  versions.filter (fun id => strContains "forge" (lowerStr id) && strContains base id)

/-- Step 4, Forge branch (`mcv.py` lines 158–195); the bootstrapped Java
path is handed to the installer call. -/
def forgeResolve (base _javaPath : String) (scan1 : List String)
    (find : Except String (Option String)) (install : Except String Unit)
    (scan2 : List String) : List Event × Except String String :=
  let ev0 : List Event := [.log ("⚒️ Looking up Forge for " ++ base ++ "...")]
  match forgeMatches scan1 base with
  | id :: _ => (ev0 ++ [.log ("✅ Forge already installed: " ++ id)], .ok id)
  | [] =>
    let ev1 := ev0 ++ [Event.findForge base]
    match find with
    | .error e => (ev1, .error e)
    | .ok none => (ev1, .error ("Forge not supported/found for " ++ base))
    | .ok (some fv) =>
      let ev2 := ev1 ++
        [.log ("⚒️ Installing Forge " ++ fv ++ " (This runs the installer)..."),
         .installForge fv]
      match install with
      | .error e => (ev2, .error e)
      | .ok _ =>
        match forgeMatches scan2 base with
        | [] => (ev2, .error "Forge install failed - could not find version ID after install.")
        | id :: _ => (ev2 ++ [.log ("✅ Forge Ready: " ++ id)], .ok id)

/-- Step 4: mod-loader resolution; any loader value other than the two
recognised strings launches the base version unchanged. -/
def loaderStep (loader base javaPath : String) (env : Env) :
    List Event × Except String String :=
  if loader = "Fabric" then
    fabricResolve base env.loaderScan1 env.fabricInstall env.loaderScan2
  else if loader = "Forge" then
    forgeResolve base javaPath env.loaderScan1 env.forgeFind env.forgeInstall env.loaderScan2
  else ([], .ok base)

def defaultSkinMarker : String := "DefaultEmbedded"

/-- Skin image resolution (`mcv.py` lines 213–229): embedded marker or the
legacy `minimal-steve` URL fragment use the embedded default; other URLs
are downloaded (which can fail); a local file is copied when it exists and
otherwise falls back to the embedded default with a warning. -/
def skinFetch (skinType skinPath : String) (localExists : Bool)
    (download : Except String Unit) : List Event × Except String SkinImg :=
  if skinType = "url" then
    if skinPath = defaultSkinMarker || strContains "minimal-steve" skinPath then
      ([.log "👕 Using Embedded Default Skin..."], .ok .embedded)
    else
      match download with
      | .error e => ([.log "⬇️ Skin File..."], .error e)
      | .ok _ => ([.log "⬇️ Skin File...", .log "✅ Skin File Done."],
                  .ok (.downloaded skinPath))
  else
    if localExists then ([], .ok (.localFile skinPath))
    else ([.log "⚠️ Local skin file missing, using default embedded."], .ok .embedded)

/-- Step 5 (`mcv.py` lines 197–234): the pack directory is wiped and
rebuilt, so the texture slots start empty; a successfully resolved image is
copied into both slots; any exception in resolution is caught, a warning
logged, and the step completes with both slots still empty. -/
def skinStep (skinType skinPath : String) (localExists : Bool)
    (download : Except String Unit) : List Event × SkinOutcome :=
  match skinFetch skinType skinPath localExists download with
  | (ev, .ok img) => (ev, ⟨some img, some img⟩)
  | (ev, .error e) =>
    (ev ++ [.log ("⚠️ Skin Error: " ++ e ++ ". Launching without custom skin.")],
     ⟨none, none⟩)

/-- Step 7 (`mcv.py` lines 271–292). -/
def launchStep (username launchId : String) (commandBuild spawn : Except String Unit) :
    List Event × Except String Unit :=
  let ev0 : List Event := [.log ("🚀 Launching Version: " ++ launchId),
              .getCommand launchId (offlineUuid username)]
  match commandBuild with
  | .error e => (ev0, .error e)
  | .ok _ =>
    let ev1 := ev0 ++ [.log "🟢 GO! Game Process Started.", .popen]
    match spawn with
    | .error e => (ev1, .error e)
    | .ok _ => (ev1, .ok ())

/-- Sequencing of worker steps: a raised exception skips the rest of the
body, and events accumulate in program order. -/
def andThen {a b : Type} (p : List Event × Except String a)
    (f : a → List Event × Except String b) : List Event × Except String b :=
  match p with
  | (ev, .error e) => (ev, .error e)
  | (ev, .ok x) => (ev ++ (f x).1, (f x).2)

/-- Steps 5 and 6 (`mcv.py` lines 197–269): skin-pack rebuild and options
registration; neither can raise out of the body (the skin step catches its
own exceptions, and registration is pure line patching). -/
def skinAndRegister (cfg : Config) (env : Env) : List Event × Except String Unit :=
  let p := skinStep cfg.skin_type cfg.skin_path env.skinLocalExists env.skinDownload
  let _newOptions := registerStep env.optionsFile
  ([Event.log "👕 Generating Custom Skin Pack..."] ++ p.1 ++
    [Event.log "⚙️ Auto-equipping Skin Pack..."], .ok ())

/-- The body of `LauncherWorker.run` inside the outer `try`. -/
def runBody (cfg : Config) (env : Env) : List Event × Except String Unit :=
  andThen (resolveBase cfg.version env.latest) fun base =>
  andThen (javaStep env.javaScan1 env.javaDownload env.javaExtract env.javaScan2) fun javaPath =>
  andThen (baseInstallStep base env.installedIds env.installBase) fun _ =>
  andThen (loaderStep cfg.loader base javaPath env) fun launchId =>
  andThen (skinAndRegister cfg env) fun _ =>
  launchStep cfg.username launchId env.commandBuild env.spawn

/-- Model of `LauncherWorker.run`: the body inside `try`, then exactly one terminal
signal — `finished_signal` on success, `error_signal(str(e))` in the
`except` handler. -/
def runWorker (cfg : Config) (env : Env) : List Event :=
  match runBody cfg env with
  | (ev, .ok _) => ev ++ [.finished]
  | (ev, .error e) => ev ++ [.errorSignal e]

/-! ## Event discipline of the worker -/

def isTerminal : Event → Bool
  | .finished => true
  | .errorSignal _ => true
  | _ => false

def isLogEv : Event → Bool
  | .log _ => true
  | _ => false

def loaderShape : Event → Bool
  | .log _ => true
  | .installFabric _ => true
  | .findForge _ => true
  | .installForge _ => true
  | _ => false

/-- Events the body of a run may emit: logs, external calls, the
latest-release query only when the alias is `"latest"`, and command
construction only with the offline identifier of the configured
username.  Terminal signals never appear in the body. -/
def runShape (username : String) (latestAllowed : Bool) : Event → Bool
  | .log _ => true
  | .getLatest => latestAllowed
  | .installMinecraft _ => true
  | .installFabric _ => true
  | .findForge _ => true
  | .installForge _ => true
  | .popen => true
  | .getCommand _ u => u == offlineUuid username
  | .finished => false
  | .errorSignal _ => false

theorem resolveBase_getLatest (version : String) (latest : Except String String) :
    Event.getLatest ∈ (resolveBase version latest).1 ↔ version = "latest" := by
  unfold resolveBase
  by_cases hv : version = "latest"
  · simp only [hv, if_true]
    cases latest <;> simp
  · simp [hv]

theorem resolveBase_shape (u : String) (b : Bool) (version : String)
    (latest : Except String String) (hb : version = "latest" → b = true) :
    ((resolveBase version latest).1).all (runShape u b) = true := by
  unfold resolveBase
  by_cases hv : version = "latest"
  · simp only [hv, if_true]
    cases latest <;> simp [runShape, hb hv]
  · simp [hv]

theorem javaStep_shape (u : String) (b : Bool) (scan1 : Option String)
    (download extract : Except String Unit) (scan2 : Option String) :
    ((javaStep scan1 download extract scan2).1).all (runShape u b) = true := by
  unfold javaStep
  cases scan1 <;> cases download <;> cases extract <;> cases scan2 <;> rfl

theorem baseInstallStep_shape (u : String) (b : Bool) (base : String)
    (installedIds : List String) (install : Except String Unit) :
    ((baseInstallStep base installedIds install).1).all (runShape u b) = true := by
  unfold baseInstallStep
  split
  · rfl
  · cases install <;> rfl

theorem fabricResolve_shape (u : String) (b : Bool) (base : String)
    (scan1 : List String) (install : Except String Unit) (scan2 : List String) :
    ((fabricResolve base scan1 install scan2).1).all (runShape u b) = true := by
  unfold fabricResolve
  cases hm1 : fabricMatches scan1 base with
  | cons id t => rfl
  | nil =>
    cases install with
    | error e => rfl
    | ok _ =>
      cases hm2 : fabricMatches scan2 base with
      | nil => rfl
      | cons id t => rfl

theorem forgeResolve_shape (u : String) (b : Bool) (base jp : String)
    (scan1 : List String) (find : Except String (Option String))
    (install : Except String Unit) (scan2 : List String) :
    ((forgeResolve base jp scan1 find install scan2).1).all (runShape u b) = true := by
  unfold forgeResolve
  cases hm1 : forgeMatches scan1 base with
  | cons id t => rfl
  | nil =>
    cases find with
    | error e => rfl
    | ok o =>
      cases o with
      | none => rfl
      | some fv =>
        cases install with
        | error e => rfl
        | ok _ =>
          cases hm2 : forgeMatches scan2 base with
          | nil => rfl
          | cons id t => rfl

theorem loaderStep_shape (u : String) (b : Bool) (loader base jp : String)
    (env : Env) :
    ((loaderStep loader base jp env).1).all (runShape u b) = true := by
  unfold loaderStep
  by_cases h1 : loader = "Fabric"
  · simp only [h1, if_true]
    exact fabricResolve_shape u b base env.loaderScan1 env.fabricInstall env.loaderScan2
  · by_cases h2 : loader = "Forge"
    · simp only [h1, h2, if_false, if_true]
      exact forgeResolve_shape u b base jp env.loaderScan1 env.forgeFind
        env.forgeInstall env.loaderScan2
    · simp [h1, h2]

theorem skinFetch_shape (u : String) (b : Bool) (st sp : String) (le : Bool)
    (dl : Except String Unit) :
    ((skinFetch st sp le dl).1).all (runShape u b) = true := by
  unfold skinFetch
  by_cases h1 : st = "url"
  · simp only [h1, if_true]
    by_cases h2 : (sp = defaultSkinMarker || strContains "minimal-steve" sp : Bool)
    · simp only [h2, if_true]
      rfl
    · simp only [h2, Bool.false_eq_true, if_false]
      cases dl <;> rfl
  · simp only [h1, if_false]
    by_cases h3 : le <;> simp only [h3, if_true, Bool.false_eq_true, if_false] <;> rfl

theorem skinStep_shape (u : String) (b : Bool) (st sp : String) (le : Bool)
    (dl : Except String Unit) :
    ((skinStep st sp le dl).1).all (runShape u b) = true := by
  have hf := skinFetch_shape u b st sp le dl
  unfold skinStep
  cases hsf : skinFetch st sp le dl with
  | mk ev r =>
    rw [hsf] at hf
    cases r with
    | ok img => exact hf
    | error e =>
      have hf' : ev.all (runShape u b) = true := hf
      simp [List.all_append, hf', runShape]

theorem launchStep_shape (u : String) (b : Bool) (launchId : String)
    (commandBuild spawn : Except String Unit) :
    ((launchStep u launchId commandBuild spawn).1).all (runShape u b) = true := by
  unfold launchStep
  cases commandBuild with
  | error e => simp [runShape]
  | ok _ =>
    cases spawn with
    | error e => simp [runShape]
    | ok _ => simp [runShape]

theorem andThen_all {a b : Type} (s : Event → Bool)
    (p : List Event × Except String a) (f : a → List Event × Except String b)
    (hp : (p.1).all s = true) (hf : ∀ x, ((f x).1).all s = true) :
    ((andThen p f).1).all s = true := by
  rcases p with ⟨ev, r⟩
  cases r with
  | error e => exact hp
  | ok x =>
    have hp' : ev.all s = true := hp
    simp only [andThen, List.all_append, hp', hf x, Bool.and_self]

theorem mem_andThen {a b : Type} (x : Event)
    (p : List Event × Except String a) (f : a → List Event × Except String b) :
    x ∈ (andThen p f).1 ↔ x ∈ p.1 ∨ ∃ v, p.2 = .ok v ∧ x ∈ (f v).1 := by
  rcases p with ⟨ev, r⟩
  cases r with
  | error e => simp [andThen]
  | ok v => simp [andThen]

theorem andThen_snd {a b : Type} (p : List Event × Except String a)
    (f : a → List Event × Except String b) :
    (andThen p f).2 = match p.2 with
      | .error e => .error e
      | .ok v => (f v).2 := by
  rcases p with ⟨ev, r⟩
  cases r <;> rfl

theorem skinAndRegister_shape (u : String) (b : Bool) (cfg : Config) (env : Env) :
    ((skinAndRegister cfg env).1).all (runShape u b) = true := by
  have h := skinStep_shape u b cfg.skin_type cfg.skin_path
    env.skinLocalExists env.skinDownload
  simp [skinAndRegister, List.all_append, h, runShape]

/-- Every event emitted by the body of a run fits `runShape`. -/
theorem runBody_shape (cfg : Config) (env : Env) :
    ((runBody cfg env).1).all
      (runShape cfg.username (decide (cfg.version = "latest"))) = true := by
  set b := decide (cfg.version = "latest") with hbdef
  unfold runBody
  refine andThen_all _ _ _ (resolveBase_shape cfg.username b cfg.version env.latest
    (fun hv => by rw [hbdef]; exact decide_eq_true hv)) (fun base => ?_)
  refine andThen_all _ _ _ (javaStep_shape cfg.username b env.javaScan1
    env.javaDownload env.javaExtract env.javaScan2) (fun javaPath => ?_)
  refine andThen_all _ _ _ (baseInstallStep_shape cfg.username b base
    env.installedIds env.installBase) (fun _ => ?_)
  refine andThen_all _ _ _ (loaderStep_shape cfg.username b cfg.loader base
    javaPath env) (fun launchId => ?_)
  refine andThen_all _ _ _ (skinAndRegister_shape cfg.username b cfg env)
    (fun _ => ?_)
  exact launchStep_shape cfg.username b launchId env.commandBuild env.spawn

def terminalOf : Except String Unit → Event
  | .ok _ => .finished
  | .error e => .errorSignal e

theorem runWorker_eq (cfg : Config) (env : Env) :
    runWorker cfg env = (runBody cfg env).1 ++ [terminalOf (runBody cfg env).2] := by
  unfold runWorker
  cases hrb : runBody cfg env with
  | mk ev r => cases r <;> rfl

theorem runShape_not_terminal (u : String) (b : Bool) (ev : Event)
    (h : runShape u b ev = true) : isTerminal ev = false := by
  cases ev <;> simp [runShape, isTerminal] at h ⊢

theorem isTerminal_terminalOf (r : Except String Unit) :
    isTerminal (terminalOf r) = true := by
  cases r <;> rfl

/-- C5: a run queries the latest-release id exactly when the configured
version alias is the string `"latest"`; for any other alias no step of the
orchestration performs the query. -/
theorem claim_C5_latest_query_gating (cfg : Config) (env : Env) :
    Event.getLatest ∈ runWorker cfg env ↔ cfg.version = "latest" := by
  rw [runWorker_eq]
  constructor
  · intro h
    rcases List.mem_append.mp h with h | h
    · have hall := runBody_shape cfg env
      have hx := List.all_eq_true.mp hall _ h
      exact of_decide_eq_true hx
    · exfalso
      have hx := List.mem_singleton.mp h
      cases hr : (runBody cfg env).2 <;> rw [hr] at hx <;> simp [terminalOf] at hx
  · intro hv
    apply List.mem_append.mpr
    left
    unfold runBody
    exact (mem_andThen _ _ _).mpr (Or.inl ((resolveBase_getLatest _ _).mpr hv))

theorem claim_C5_witness :
    (Event.getLatest ∈ runWorker
      ⟨"MCVPlayer", "1.20.1", 4, "Vanilla", "url", "DefaultEmbedded"⟩
      ⟨.ok "1.21", some "java.exe", .ok (), .ok (), some "java.exe", ["1.20.1"],
        .ok (), [], .ok (), .ok none, .ok (), [], false, .ok (), none, .ok (), .ok ()⟩
      ↔ ("1.20.1" : String) = "latest") :=
  claim_C5_latest_query_gating _ _

/-- C9: every run of the worker emits exactly one terminal signal, it is
the last event, the run finishes with `finished` exactly when the whole
body succeeded, and an error signal carries the message of the exception
that aborted the body; no exception escapes (`runWorker` is total). -/
theorem claim_C9_single_terminal_signal (cfg : Config) (env : Env) :
    (runWorker cfg env).countP (fun ev => isTerminal ev) = 1 ∧
    runWorker cfg env = (runBody cfg env).1 ++ [terminalOf (runBody cfg env).2] ∧
    ((runBody cfg env).2 = .ok () → (runWorker cfg env).getLast? = some .finished) ∧
    (∀ m, (runBody cfg env).2 = .error m →
       (runWorker cfg env).getLast? = some (.errorSignal m)) ∧
    (Event.finished ∈ runWorker cfg env ↔ (runBody cfg env).2 = .ok ()) := by
  have hbody0 : ((runBody cfg env).1).countP (fun ev => isTerminal ev) = 0 := by
    rw [List.countP_eq_zero]
    intro ev hev
    have hx := List.all_eq_true.mp (runBody_shape cfg env) _ hev
    simp [runShape_not_terminal _ _ _ hx]
  refine ⟨?_, runWorker_eq cfg env, ?_, ?_, ?_⟩
  · rw [runWorker_eq, List.countP_append, hbody0]
    simp [List.countP_cons, isTerminal_terminalOf]
  · intro hok
    rw [runWorker_eq, hok, List.getLast?_concat]
    rfl
  · intro m herr
    rw [runWorker_eq, herr, List.getLast?_concat]
    rfl
  · rw [runWorker_eq]
    constructor
    · intro h
      rcases List.mem_append.mp h with h | h
      · exfalso
        have hx := List.all_eq_true.mp (runBody_shape cfg env) _ h
        simp [runShape] at hx
      · have hx := List.mem_singleton.mp h
        cases hr : (runBody cfg env).2 with
        | ok v => rfl
        | error e => rw [hr] at hx; simp [terminalOf] at hx
    · intro hok
      rw [hok]
      exact List.mem_append.mpr (Or.inr (List.mem_singleton.mpr rfl))

theorem claim_C9_witness :
    (runWorker ⟨"MCVPlayer", "1.20.1", 4, "Vanilla", "url", "DefaultEmbedded"⟩
      ⟨.ok "1.21", some "java.exe", .ok (), .ok (), some "java.exe", ["1.20.1"],
        .ok (), [], .ok (), .ok none, .ok (), [], false, .ok (), none, .ok (),
        .ok ()⟩).countP (fun ev => isTerminal ev) = 1 :=
  (claim_C9_single_terminal_signal _ _).1

/-! ## Skin resolution (claim C1) -/

/-- C1 counterexample: with a remote skin URL whose download fails, the
worker logs a warning and continues, but the freshly wiped texture slots
are never written — both are left empty, not populated as claimed. -/
theorem claim_C1_counterexample :
    (skinStep "url" "http://example.com/skin.png" false
      (.error "HTTP Error 404: Not Found")).2.wide = none ∧
    (skinStep "url" "http://example.com/skin.png" false
      (.error "HTTP Error 404: Not Found")).2.slim = none ∧
    Event.log "⚠️ Skin Error: HTTP Error 404: Not Found. Launching without custom skin."
      ∈ (skinStep "url" "http://example.com/skin.png" false
          (.error "HTTP Error 404: Not Found")).1 :=
  ⟨by decide, by decide, by decide⟩

theorem skinAndRegister_snd (cfg : Config) (env : Env) :
    (skinAndRegister cfg env).2 = .ok () := rfl

/-- C1 (amended): when the configured local file path does not exist the
embedded default is written to both texture slots with a warning; when a
remote URL download fails a warning is logged and the step completes
non-fatally, but both texture slots are left empty (no custom skin); and
the outcome of the whole run never depends on the skin download result. -/
theorem claim_C1_skin_resolution :
    (∀ (path : String) (dl : Except String Unit),
       (skinStep "file" path false dl).2.wide = some .embedded ∧
       (skinStep "file" path false dl).2.slim = some .embedded ∧
       Event.log "⚠️ Local skin file missing, using default embedded."
         ∈ (skinStep "file" path false dl).1) ∧
    (∀ (url msg : String) (le : Bool),
       url ≠ defaultSkinMarker → strContains "minimal-steve" url = false →
       (skinStep "url" url le (.error msg)).2.wide = none ∧
       (skinStep "url" url le (.error msg)).2.slim = none ∧
       Event.log ("⚠️ Skin Error: " ++ msg ++ ". Launching without custom skin.")
         ∈ (skinStep "url" url le (.error msg)).1) ∧
    (∀ (cfg : Config) (env : Env) (d1 d2 : Except String Unit),
       (runBody cfg { env with skinDownload := d1 }).2
         = (runBody cfg { env with skinDownload := d2 }).2) := by
  refine ⟨?_, ?_, ?_⟩
  · intro path dl
    refine ⟨rfl, rfl, ?_⟩
    show Event.log _ ∈ (skinStep "file" path false dl).1
    simp [skinStep, skinFetch]
  · intro url msg le hmarker hsteve
    have hcond : (decide (url = defaultSkinMarker) || strContains "minimal-steve" url) = false := by
      simp [hmarker, hsteve]
    constructor
    · simp [skinStep, skinFetch, hcond]
    constructor
    · simp [skinStep, skinFetch, hcond]
    · simp [skinStep, skinFetch, hcond]
  · intro cfg env d1 d2
    unfold runBody
    simp only [andThen_snd, skinAndRegister_snd, loaderStep]

theorem claim_C1_witness :
    ((skinStep "file" "C:/missing.png" false (.ok ())).2.wide = some .embedded ∧
     (skinStep "file" "C:/missing.png" false (.ok ())).2.slim = some .embedded ∧
     Event.log "⚠️ Local skin file missing, using default embedded."
       ∈ (skinStep "file" "C:/missing.png" false (.ok ())).1) ∧
    ((skinStep "url" "http://example.com/s.png" false (.error "timeout")).2.wide = none ∧
     (skinStep "url" "http://example.com/s.png" false (.error "timeout")).2.slim = none ∧
     Event.log ("⚠️ Skin Error: " ++ "timeout" ++ ". Launching without custom skin.")
       ∈ (skinStep "url" "http://example.com/s.png" false (.error "timeout")).1) :=
  ⟨claim_C1_skin_resolution.1 "C:/missing.png" (.ok ()),
   claim_C1_skin_resolution.2.1 "http://example.com/s.png" "timeout" false
     (by decide) (by decide)⟩

/-! ## Fabric loader resolution (claim C6) -/

/-- C6: with loader Fabric, when the installed-version scan already finds
an id containing both the loader marker (case-insensitively) and the base
id, the installer is not invoked and the first match becomes the launch
id; with no match the installer is invoked and the list rescanned — a
still-empty rescan raises the loader-install error, otherwise the first
rescanned match is used.  The worker reaches this logic through
`loaderStep` whenever the configured loader is `"Fabric"`. -/
theorem claim_C6_fabric_reuse_or_install (base : String) (scan1 : List String)
    (install : Except String Unit) (scan2 : List String) :
    (∀ (id : String) (t : List String), fabricMatches scan1 base = id :: t →
       Event.installFabric base ∉ (fabricResolve base scan1 install scan2).1 ∧
       (fabricResolve base scan1 install scan2).2 = .ok id) ∧
    (fabricMatches scan1 base = [] →
       Event.installFabric base ∈ (fabricResolve base scan1 install scan2).1 ∧
       (install = .ok () → fabricMatches scan2 base = [] →
         (fabricResolve base scan1 install scan2).2
           = .error "Fabric install failed - could not find version ID after install.") ∧
       (∀ (id : String) (t : List String), install = .ok () →
         fabricMatches scan2 base = id :: t →
         (fabricResolve base scan1 install scan2).2 = .ok id)) ∧
    (∀ (jp : String) (env : Env), loaderStep "Fabric" base jp env
       = fabricResolve base env.loaderScan1 env.fabricInstall env.loaderScan2) := by
  refine ⟨?_, ?_, fun jp env => rfl⟩
  · intro id t hm
    unfold fabricResolve
    rw [hm]
    exact ⟨by simp, rfl⟩
  · intro hm
    unfold fabricResolve
    rw [hm]
    refine ⟨?_, ?_, ?_⟩
    · cases install with
      | error e => simp
      | ok _ =>
        cases hm2 : fabricMatches scan2 base with
        | nil => simp
        | cons id t => simp
    · intro hok hm2
      rw [hok, hm2]
    · intro id t hok hm2
      rw [hok, hm2]

theorem claim_C6_witness :
    (fabricMatches ["fabric-loader-0.15.11-1.20.1"] "1.20.1"
       = "fabric-loader-0.15.11-1.20.1" :: [] ∧
     Event.installFabric "1.20.1"
       ∉ (fabricResolve "1.20.1" ["fabric-loader-0.15.11-1.20.1"] (.ok ()) []).1 ∧
     (fabricResolve "1.20.1" ["fabric-loader-0.15.11-1.20.1"] (.ok ()) []).2
       = .ok "fabric-loader-0.15.11-1.20.1") ∧
    (fabricMatches [] "1.20.1" = [] ∧
     Event.installFabric "1.20.1" ∈ (fabricResolve "1.20.1" [] (.ok ()) []).1 ∧
     (fabricResolve "1.20.1" [] (.ok ()) []).2
       = .error "Fabric install failed - could not find version ID after install.") := by
  have h1 := (claim_C6_fabric_reuse_or_install "1.20.1"
    ["fabric-loader-0.15.11-1.20.1"] (.ok ()) []).1
    "fabric-loader-0.15.11-1.20.1" [] (by decide)
  have h2 := (claim_C6_fabric_reuse_or_install "1.20.1" [] (.ok ()) []).2.1 (by decide)
  exact ⟨⟨by decide, h1.1, h1.2⟩, ⟨by decide, h2.1, h2.2.1 rfl (by decide)⟩⟩

/-! ## The offline identifier (claim C8) -/

theorem toHexPad_length (len n : Nat) : (toHexPad len n).length = len := by
  induction len generalizing n with
  | zero => rfl
  | succ k ih => simp [toHexPad, ih]

def fromHexAux (acc : Nat) : List Char → Nat
  | [] => acc
  | c :: t => fromHexAux (acc * 16 + (hexVal c).getD 0) t

theorem hexVal_hexDigitChar (n : Nat) : (hexVal (hexDigitChar n)).getD 0 = n % 16 := by
  have h : n % 16 < 16 := Nat.mod_lt _ (by norm_num)
  have hall : ∀ m, m < 16 →
      (hexVal ("0123456789abcdef".data.getD m '0')).getD 0 = m := by decide
  simpa [hexDigitChar] using hall _ h

theorem fromHexAux_toHexPad (len : Nat) :
    ∀ (n acc : Nat), fromHexAux acc (toHexPad len n) = acc * 16 ^ len + n % 16 ^ len := by
  induction len with
  | zero => intro n acc; simp [toHexPad, fromHexAux, Nat.mod_one]
  | succ k ih =>
    intro n acc
    rw [toHexPad, fromHexAux, hexVal_hexDigitChar, ih, Nat.mod_pow_succ]
    ring

theorem toHexPad_inj (len n m : Nat) (hn : n < 16 ^ len) (hm : m < 16 ^ len)
    (h : toHexPad len n = toHexPad len m) : n = m := by
  have h1 := fromHexAux_toHexPad len n 0
  have h2 := fromHexAux_toHexPad len m 0
  rw [h] at h1
  have h3 := h2.symm.trans h1
  simpa [Nat.mod_eq_of_lt hn, Nat.mod_eq_of_lt hm] using h3.symm

theorem toHexPad_no_dash (len : Nat) :
    ∀ (n : Nat) (c : Char), c ∈ toHexPad len n → (c != '-') = true := by
  induction len with
  | zero => intro n c hc; simp [toHexPad] at hc
  | succ k ih =>
    intro n c hc
    rw [toHexPad] at hc
    rcases List.mem_cons.mp hc with h | h
    · subst h
      have hlt : n / 16 ^ k % 16 < 16 := Nat.mod_lt _ (by norm_num)
      have hall : ∀ m, m < 16 →
          (("0123456789abcdef".data.getD m '0') != '-') = true := by decide
      simpa [hexDigitChar] using hall _ hlt
    · exact ih n c h

theorem segs_recombine (l : List Char) :
    l.take 8 ++ ((l.drop 8).take 4 ++ ((l.drop 12).take 4 ++
      ((l.drop 16).take 4 ++ l.drop 20))) = l := by
  have e3 : (l.drop 16).take 4 ++ l.drop 20 = l.drop 16 := by
    conv_rhs => rw [← List.take_append_drop 4 (l.drop 16)]
    congr 1
    simp [List.drop_drop]
  have e2 : (l.drop 12).take 4 ++ l.drop 16 = l.drop 12 := by
    conv_rhs => rw [← List.take_append_drop 4 (l.drop 12)]
    congr 1
    simp [List.drop_drop]
  have e1 : (l.drop 8).take 4 ++ l.drop 12 = l.drop 8 := by
    conv_rhs => rw [← List.take_append_drop 4 (l.drop 8)]
    congr 1
    simp [List.drop_drop]
  rw [e3, e2, e1, List.take_append_drop]

theorem filter_uuidDashes (l : List Char) (h : ∀ c ∈ l, (c != '-') = true) :
    (uuidDashes l).filter (fun c => c != '-') = l := by
  have hseg : ∀ (s : List Char), (∀ c ∈ s, c ∈ l) → s.filter (fun c => c != '-') = s :=
    fun s hs => List.filter_eq_self.mpr (fun c hc => h c (hs c hc))
  unfold uuidDashes
  rw [List.filter_append, List.filter_cons, List.filter_append, List.filter_cons,
    List.filter_append, List.filter_cons, List.filter_append, List.filter_cons]
  simp only [show (('-' : Char) != '-') = false from rfl, if_false]
  rw [hseg _ (fun c hc => List.mem_of_mem_take hc),
    hseg _ (fun c hc => List.mem_of_mem_drop (List.mem_of_mem_take hc)),
    hseg _ (fun c hc => List.mem_of_mem_drop (List.mem_of_mem_take hc)),
    hseg _ (fun c hc => List.mem_of_mem_drop (List.mem_of_mem_take hc)),
    hseg _ (fun c hc => List.mem_of_mem_drop hc)]
  exact segs_recombine l

theorem uuidDashes_inj (l1 l2 : List Char)
    (h1 : ∀ c ∈ l1, (c != '-') = true) (h2 : ∀ c ∈ l2, (c != '-') = true)
    (h : uuidDashes l1 = uuidDashes l2) : l1 = l2 := by
  rw [← filter_uuidDashes l1 h1, ← filter_uuidDashes l2 h2, h]

theorem bytesToNat_lt (bs : List Nat) (h : ∀ b ∈ bs, b < 256) :
    bytesToNat bs < 256 ^ bs.length := by
  suffices haux : ∀ (acc : Nat), bs.foldl (fun a b => a * 256 + b) acc
      < (acc + 1) * 256 ^ bs.length by
    simpa [bytesToNat] using haux 0
  induction bs with
  | nil => intro acc; simpa using Nat.lt_succ_self acc
  | cons b t ih =>
    intro acc
    have hb : b < 256 := h b (List.mem_cons_self _ _)
    have ht : ∀ x ∈ t, x < 256 := fun x hx => h x (List.mem_cons_of_mem _ hx)
    have := (ih ht) (acc * 256 + b)
    calc (b :: t).foldl (fun a b => a * 256 + b) acc
        = t.foldl (fun a b => a * 256 + b) (acc * 256 + b) := rfl
      _ < (acc * 256 + b + 1) * 256 ^ t.length := this
      _ ≤ ((acc + 1) * 256) * 256 ^ t.length := by
          have : acc * 256 + b + 1 ≤ (acc + 1) * 256 := by nlinarith
          exact Nat.mul_le_mul_right _ this
      _ = (acc + 1) * 256 ^ (t.length + 1) := by ring
      _ = (acc + 1) * 256 ^ (b :: t).length := by simp

theorem wordLE_bound (w b : Nat) (h : b ∈ wordLE w) : b < 256 := by
  simp only [wordLE, List.mem_cons, List.not_mem_nil, or_false] at h
  rcases h with rfl | rfl | rfl | rfl
  · exact Nat.mod_lt _ (by norm_num)
  · exact Nat.mod_lt _ (by norm_num)
  · exact Nat.mod_lt _ (by norm_num)
  · exact Nat.mod_lt _ (by norm_num)

theorem md5_bound (msg : List Nat) : ∀ b ∈ md5 msg, b < 256 := by
  intro b hb
  unfold md5 at hb
  simp only [List.mem_append] at hb
  rcases hb with ((h | h) | h) | h <;> exact wordLE_bound _ _ h

theorem md5_length (msg : List Nat) : (md5 msg).length = 16 := by
  unfold md5
  simp [wordLE]

theorem uuid3Bytes_bound (name : String) : ∀ b ∈ uuid3Bytes name, b < 256 := by
  intro b hb
  unfold uuid3Bytes setUuidBits at hb
  have h15 : ∀ x : Nat, x &&& 15 ||| 48 < 256 := by
    intro x
    have h1 : x &&& 15 ≤ 15 := Nat.and_le_right
    have hall : ∀ a, a ≤ 15 → a ||| 48 < 256 := by decide
    exact hall _ h1
  have h63 : ∀ x : Nat, x &&& 63 ||| 128 < 256 := by
    intro x
    have h1 : x &&& 63 ≤ 63 := Nat.and_le_right
    have hall : ∀ a, a ≤ 63 → a ||| 128 < 256 := by decide
    exact hall _ h1
  rcases List.mem_or_eq_of_mem_set hb with hb | hb
  · rcases List.mem_or_eq_of_mem_set hb with hb | hb
    · exact md5_bound _ b hb
    · rw [hb]; exact h15 _
  · rw [hb]; exact h63 _

theorem uuid3Bytes_length (name : String) : (uuid3Bytes name).length = 16 := by
  unfold uuid3Bytes setUuidBits
  rw [List.length_set, List.length_set, md5_length]

theorem uuid3Int_lt (name : String) : bytesToNat (uuid3Bytes name) < 16 ^ 32 := by
  have h := bytesToNat_lt (uuid3Bytes name) (uuid3Bytes_bound name)
  rw [uuid3Bytes_length] at h
  calc bytesToNat (uuid3Bytes name) < 256 ^ 16 := h
    _ = 16 ^ 32 := by norm_num

/-- C8: the offline identifier used for command construction is the fixed
function `offlineUuid` of the username alone, so any two runs with the same
username use the same identifier; and two identifiers coincide exactly when
the underlying (version-masked) MD5 digests of namespace and username
coincide — distinct usernames give distinct identifiers up to an MD5
collision. -/
theorem claim_C8_offline_identifier :
    (∀ (cfg : Config) (env : Env) (lid u : String),
       Event.getCommand lid u ∈ runWorker cfg env → u = offlineUuid cfg.username) ∧
    (∀ (cfg1 cfg2 : Config) (env1 env2 : Env) (lid1 lid2 u1 u2 : String),
       cfg1.username = cfg2.username →
       Event.getCommand lid1 u1 ∈ runWorker cfg1 env1 →
       Event.getCommand lid2 u2 ∈ runWorker cfg2 env2 → u1 = u2) ∧
    (∀ u1 u2 : String, offlineUuid u1 = offlineUuid u2 ↔
       bytesToNat (uuid3Bytes u1) = bytesToNat (uuid3Bytes u2)) := by
  have hA : ∀ (cfg : Config) (env : Env) (lid u : String),
      Event.getCommand lid u ∈ runWorker cfg env → u = offlineUuid cfg.username := by
    intro cfg env lid u h
    rw [runWorker_eq] at h
    rcases List.mem_append.mp h with h | h
    · have hx := List.all_eq_true.mp (runBody_shape cfg env) _ h
      have : (u == offlineUuid cfg.username) = true := hx
      exact eq_of_beq this
    · exfalso
      have hx := List.mem_singleton.mp h
      cases hr : (runBody cfg env).2 <;> rw [hr] at hx <;> simp [terminalOf] at hx
  refine ⟨hA, ?_, ?_⟩
  · intro cfg1 cfg2 env1 env2 lid1 lid2 u1 u2 huser h1 h2
    rw [hA cfg1 env1 lid1 u1 h1, hA cfg2 env2 lid2 u2 h2, huser]
  · intro u1 u2
    constructor
    · intro h
      have hdata : uuidDashes (toHexPad 32 (bytesToNat (uuid3Bytes u1)))
          = uuidDashes (toHexPad 32 (bytesToNat (uuid3Bytes u2))) := by
        injection h
      have hhex := uuidDashes_inj _ _ (toHexPad_no_dash 32 _) (toHexPad_no_dash 32 _) hdata
      exact toHexPad_inj 32 _ _ (uuid3Int_lt u1) (uuid3Int_lt u2) hhex
    · intro h
      unfold offlineUuid
      rw [h]

set_option maxRecDepth 100000 in
theorem claim_C8_witness :
    (offlineUuid "Alice" = offlineUuid "Alice" ↔
      bytesToNat (uuid3Bytes "Alice") = bytesToNat (uuid3Bytes "Alice")) ∧
    offlineUuid "MCVPlayer" = "8ca5f0df-df0f-358f-977b-0fd2c24a3b09" ∧
    offlineUuid "Alice" ≠ offlineUuid "Bob" :=
  ⟨claim_C8_offline_identifier.2.2 "Alice" "Alice", by decide, by decide⟩
